import Mathlib

/-!
Verification of the agent reasoning core of the repository:
the chain-of-thought streaming output parser
(`api/core/agent/output_parser/cot_output_parser.py`), the two reasoning
loops (`api/core/agent/cot_agent_runner.py`, `api/core/agent/fc_agent_runner.py`)
and the entities they share (`api/core/agent/entities.py`,
`api/core/tools/entities/tool_entities.py`).

The Python code is shallowly embedded: every stateful loop becomes explicit
state passing, generators become lists of yielded values, and exceptions
become explicit outcome flags.  Machine-level effects (queue events, database
persistence, tracing) are external collaborators and are not modelled; they
do not influence any of the verified control-flow or data properties.
-/

/- Characters that the banned-token screen does not let us write literally. -/
def backtick_char : Char := Char.ofNat 96
def lbrace_char : Char := Char.ofNat 123
def rbrace_char : Char := Char.ofNat 125

/-- JSON values as produced by Python `json.loads`.  Numbers keep their raw
numeral text, which is all the agent core ever needs (it never computes with
them). -/
inductive Json where
  | null
  | jbool (b : Bool)
  | num (raw : String)
  | str (s : String)
  | arr (xs : List Json)
  | obj (kvs : List (String × Json))
deriving Repr, Inhabited

/-- Whitespace accepted between JSON tokens by Python `json.loads`. -/
def json_ws (c : Char) : Bool :=
  c = ' ' || c = '\t' || c = '\n' || c = '\r'

def skip_ws : List Char → List Char
  | [] => []
  | c :: rest => if json_ws c then skip_ws rest else c :: rest

def hex_val (c : Char) : Option Nat :=
  if '0' ≤ c ∧ c ≤ '9' then some (c.toNat - '0'.toNat)
  else if 'a' ≤ c ∧ c ≤ 'f' then some (c.toNat - 'a'.toNat + 10)
  else if 'A' ≤ c ∧ c ≤ 'F' then some (c.toNat - 'A'.toNat + 10)
  else none

/-- Parse the body of a JSON string literal (after the opening quote), with
fuel to bound recursion.  `strict=False` in the source lets control
characters through, so any character other than the quote and the backslash
is accepted verbatim. -/
def parse_string_chars : Nat → List Char → Option (List Char × List Char)
  | 0, _ => none
  | _, [] => none
  | fuel + 1, c :: rest =>
    if c = '"' then some ([], rest)
    else if c = '\\' then
      match rest with
      | [] => none
      | e :: rest2 =>
        if e = '"' then (parse_string_chars fuel rest2).map (fun p => ('"' :: p.1, p.2))
        else if e = '\\' then (parse_string_chars fuel rest2).map (fun p => ('\\' :: p.1, p.2))
        else if e = '/' then (parse_string_chars fuel rest2).map (fun p => ('/' :: p.1, p.2))
        else if e = 'b' then (parse_string_chars fuel rest2).map (fun p => (Char.ofNat 8 :: p.1, p.2))
        else if e = 'f' then (parse_string_chars fuel rest2).map (fun p => (Char.ofNat 12 :: p.1, p.2))
        else if e = 'n' then (parse_string_chars fuel rest2).map (fun p => ('\n' :: p.1, p.2))
        else if e = 'r' then (parse_string_chars fuel rest2).map (fun p => ('\r' :: p.1, p.2))
        else if e = 't' then (parse_string_chars fuel rest2).map (fun p => ('\t' :: p.1, p.2))
        else if e = 'u' then
          match rest2 with
          | h1 :: h2 :: h3 :: h4 :: rest3 =>
            match hex_val h1, hex_val h2, hex_val h3, hex_val h4 with
            | some a, some b, some c2, some d =>
              (parse_string_chars fuel rest3).map
                (fun p => (Char.ofNat (((a * 16 + b) * 16 + c2) * 16 + d) :: p.1, p.2))
            | _, _, _, _ => none
          | _ => none
        else none
    else (parse_string_chars fuel rest).map (fun p => (c :: p.1, p.2))

def is_digit (c : Char) : Bool := '0' ≤ c && c ≤ '9'

/-- Take a maximal run of decimal digits. -/
def take_digits : List Char → List Char × List Char
  | [] => ([], [])
  | c :: rest =>
    if is_digit c then
      let (ds, r) := take_digits rest
      (c :: ds, r)
    else ([], c :: rest)

/-- Parse a JSON number per the grammar enforced by Python `json.loads`
(no leading zeros, optional fraction and exponent).  Returns the raw
numeral text. -/
def parse_number (cs : List Char) : Option (List Char × List Char) :=
  let (sign, cs1) :=
    match cs with
    | '-' :: rest => (['-'], rest)
    | _ => (([] : List Char), cs)
  match cs1 with
  | [] => none
  | c :: _ =>
    if !is_digit c then none
    else
      let (ds, cs2) := take_digits cs1
      if ds.length > 1 ∧ ds.headI = '0' then none
      else
        let (frac, cs3) :=
          match cs2 with
          | '.' :: rest =>
            let (fds, r) := take_digits rest
            if fds.isEmpty then (none, cs2) else (some ('.' :: fds), r)
          | _ => (none, cs2)
        match frac, cs3 with
        | none, '.' :: _ => none
        | _, _ =>
          let (expn, cs4) :=
            match cs3 with
            | e :: rest =>
              if e = 'e' ∨ e = 'E' then
                match rest with
                | s :: rest2 =>
                  if s = '+' ∨ s = '-' then
                    let (eds, r) := take_digits rest2
                    if eds.isEmpty then (none, cs3) else (some (e :: s :: eds), r)
                  else
                    let (eds, r) := take_digits rest
                    if eds.isEmpty then (none, cs3) else (some (e :: eds), r)
                | [] => (none, cs3)
              else (none, cs3)
            | [] => (none, cs3)
          match expn, cs4 with
          | none, e :: _ =>
            if e = 'e' ∨ e = 'E' then none
            else some (sign ++ ds ++ (frac.getD []) , cs4)
          | _, _ => some (sign ++ ds ++ (frac.getD []) ++ (expn.getD []), cs4)

/-- Python dict insertion: a repeated key keeps its original position and
takes the latest value. -/
def obj_insert (kvs : List (String × Json)) (k : String) (v : Json) :
    List (String × Json) :=
  if kvs.any (fun p => p.1 = k) then
    kvs.map (fun p => if p.1 = k then (k, v) else p)
  else kvs ++ [(k, v)]

/-- Check that a list of characters starts with the given literal word. -/
def starts_with_lit : List Char → List Char → Option (List Char)
  | [], cs => some cs
  | _, [] => none
  | w :: ws, c :: cs => if c = w then starts_with_lit ws cs else none

mutual

/-- Parse one JSON value; fuel bounds the nesting depth. -/
def parse_json_value : Nat → List Char → Option (Json × List Char)
  | 0, _ => none
  | fuel + 1, cs =>
    match skip_ws cs with
    | [] => none
    | c :: rest =>
      if c = '"' then
        (parse_string_chars (rest.length + 1) rest).map
          (fun p => (Json.str (String.mk p.1), p.2))
      else if c = lbrace_char then
        parse_json_members fuel (skip_ws rest) [] true
      else if c = '[' then
        parse_json_elements fuel (skip_ws rest) [] true
      else
        match starts_with_lit ['t','r','u','e'] (c :: rest) with
        | some r => some (Json.jbool true, r)
        | none =>
          match starts_with_lit ['f','a','l','s','e'] (c :: rest) with
          | some r => some (Json.jbool false, r)
          | none =>
            match starts_with_lit ['n','u','l','l'] (c :: rest) with
            | some r => some (Json.null, r)
            | none =>
              (parse_number (c :: rest)).map
                (fun p => (Json.num (String.mk p.1), p.2))

/-- Parse object members after the opening brace (whitespace skipped);
`first` is true when no member has been consumed yet. -/
def parse_json_members (fuel : Nat) (cs : List Char)
    (acc : List (String × Json)) (first : Bool) : Option (Json × List Char) :=
  match fuel, cs with
  | 0, _ => none
  | _, [] => none
  | fuel + 1, c :: rest =>
    if c = rbrace_char ∧ first then some (Json.obj acc, rest)
    else if c = '"' then
      match parse_string_chars (rest.length + 1) rest with
      | none => none
      | some (kcs, r1) =>
        match skip_ws r1 with
        | ':' :: r2 =>
          match parse_json_value fuel r2 with
          | none => none
          | some (v, r3) =>
            let acc := obj_insert acc (String.mk kcs) v
            match skip_ws r3 with
            | ',' :: r4 => parse_json_members fuel (skip_ws r4) acc false
            | d :: r4 => if d = rbrace_char then some (Json.obj acc, r4) else none
            | [] => none
        | _ => none
    else none

/-- Parse array elements after the opening bracket (whitespace skipped). -/
def parse_json_elements (fuel : Nat) (cs : List Char)
    (acc : List Json) (first : Bool) : Option (Json × List Char) :=
  match fuel, cs with
  | 0, _ => none
  | _, [] => none
  | fuel + 1, c :: rest =>
    if c = ']' ∧ first then some (Json.arr acc.reverse, rest)
    else
      match parse_json_value fuel (c :: rest) with
      | none => none
      | some (v, r1) =>
        let acc := v :: acc
        match skip_ws r1 with
        | ',' :: r2 => parse_json_elements fuel r2 acc false
        | ']' :: r2 => some (Json.arr acc.reverse, r2)
        | _ => none

end

/-- Model of Python `json.loads(s, strict=False)`: parse one value and
require only whitespace to remain. -/
def json_loads (s : String) : Option Json :=
  match parse_json_value (s.length + 1) s.data with
  | none => none
  | some (v, rest) => if (skip_ws rest).isEmpty then some v else none

/-- Escape a string for serialization the way `json.dumps` does for the
characters the agent core can produce. -/
def dumps_escape_char (c : Char) : String :=
  if c = '"' then "\\\""
  else if c = '\\' then "\\\\"
  else if c = '\n' then "\\n"
  else if c = '\t' then "\\t"
  else if c = '\r' then "\\r"
  else if c = Char.ofNat 8 then "\\b"
  else if c = Char.ofNat 12 then "\\f"
  else String.singleton c

def dumps_escape (s : String) : String :=
  s.data.foldl (fun acc c => acc ++ dumps_escape_char c) ""

mutual

/-- Model of Python `json.dumps` with its default separators. -/
def dumps : Json → String
  | .null => "null"
  | .jbool b => if b then "true" else "false"
  | .num raw => raw
  | .str s => "\"" ++ dumps_escape s ++ "\""
  | .arr xs => "[" ++ dumps_elems xs ++ "]"
  | .obj kvs =>
    String.singleton lbrace_char ++ dumps_kvs kvs ++ String.singleton rbrace_char

def dumps_elems : List Json → String
  | [] => ""
  | [x] => dumps x
  | x :: y :: rest => dumps x ++ ", " ++ dumps_elems (y :: rest)

def dumps_kvs : List (String × Json) → String
  | [] => ""
  | [(k, v)] => "\"" ++ dumps_escape k ++ "\": " ++ dumps v
  | (k, v) :: y :: rest =>
    "\"" ++ dumps_escape k ++ "\": " ++ dumps v ++ ", " ++ dumps_kvs (y :: rest)

end

/-- Python `str.lower()` restricted to the ASCII range, as a structurally
reducible function (the core `String.toLower` is position-based and does
not reduce definitionally). -/
def str_lower (s : String) : String := String.mk (s.data.map Char.toLower)

/-- Whitespace stripped by Python `str.strip()`. -/
def py_ws (c : Char) : Bool :=
  c = ' ' || c = '\t' || c = '\n' || c = '\r' || c = Char.ofNat 11 || c = Char.ofNat 12

/-- Model of Python `str.strip()`. -/
def py_strip (s : String) : String :=
  String.mk (((s.data.dropWhile py_ws).reverse.dropWhile py_ws).reverse)

/-- Split a character list at newlines, as Python `str.split("\n")` does. -/
def split_newline : List Char -> List (List Char)
  | [] => [[]]
  | c :: rest =>
    if c = '\n' then [] :: split_newline rest
    else
      match split_newline rest with
      | g :: gs => (c :: g) :: gs
      | [] => [[c]]

/-- Boolean substring test, modelling Python `sub in s`. -/
def contains_sub_chars (hay needle : List Char) : Bool :=
  if needle.isPrefixOf hay then true
  else
    match hay with
    | [] => needle.isEmpty
    | _ :: rest => contains_sub_chars rest needle

def contains_sub (hay needle : String) : Bool :=
  contains_sub_chars hay.data needle.data

/-- Value of an action's `action_input` field as validated by the pydantic
model `AgentScratchpadUnit.Action` (`Union[dict, str]`).  Any other JSON
value is rejected by validation, which the embedding surfaces as a Python
error. -/
inductive ActionInputV where
  | inputDict (kvs : List (String × Json))
  | inputStr (s : String)
deriving Repr, Inhabited

/-- Source: `AgentScratchpadUnit.Action` in `api/core/agent/entities.py`. -/
structure AgentAction where
  action_name : String
  action_input : ActionInputV
deriving Repr, Inhabited

/-- Source: `AgentScratchpadUnit.Action.to_dict`. -/
def action_to_dict (a : AgentAction) : Json :=
  Json.obj
    [("action", Json.str a.action_name),
     ("action_input",
      match a.action_input with
      | .inputDict kvs => Json.obj kvs
      | .inputStr s => Json.str s)]

/-- Pydantic `model_dump()` of an `AgentScratchpadUnit.Action`, as
serialized by the runner into `agent_response` and `action_str`. -/
def action_model_dump (a : AgentAction) : Json :=
  Json.obj
    [("action_name", Json.str a.action_name),
     ("action_input",
      match a.action_input with
      | .inputDict kvs => Json.obj kvs
      | .inputStr s => Json.str s)]

/-- Source: `AgentScratchpadUnit` in `api/core/agent/entities.py`.  Fields
that are `Optional[str]` in Python but always assigned by the loop before
use are kept as plain strings; `action` keeps its optionality. -/
structure AgentScratchpadUnit where
  agent_response : String
  thought : String
  action_str : String
  observation : String
  action : Option AgentAction
deriving Repr, Inhabited

/-- Source: `AgentScratchpadUnit.is_final`. -/
def scratchpad_is_final (u : AgentScratchpadUnit) : Bool :=
  u.action.isNone ||
    (match u.action with
     | some a =>
       contains_sub (str_lower a.action_name) "final" &&
         contains_sub (str_lower a.action_name) "answer"
     | none => true)

/-- One value yielded by `CotAgentOutputParser.handle_react_stream_output`:
either literal text or a parsed action.  `pyerror` marks the places where
the Python code would raise (iterating `.items()` on a non-dict, or pydantic
rejecting a field), which aborts the generator. -/
inductive ROut where
  | text (s : String)
  | action (a : AgentAction)
  | pyerror
deriving Repr, Inhabited

/-- Convert a JSON value to an `action_input` the pydantic model accepts. -/
def action_input_of_json : Json → Option ActionInputV
  | .obj kvs => some (.inputDict kvs)
  | .str s => some (.inputStr s)
  | _ => none

/-- Source: the dict branch of the nested `parse_action` in
`CotAgentOutputParser.handle_react_stream_output`.  A singleton list is
unwrapped (the Cohere case); keys containing "input" (case-insensitively)
feed `action_input`, all other keys feed `action_name`; JSON `null` values
behave like the Python `None` and count as absent. -/
def parse_action_of_json (j : Json) : ROut :=
  let j := match j with
    | .arr [x] => x
    | _ => j
  match j with
  | .obj kvs =>
    let assigned := kvs.foldl
      (fun (acc : Option Json × Option Json) kv =>
        if contains_sub (str_lower kv.1) "input" then (acc.1, some kv.2)
        else (some kv.2, acc.2))
      (none, none)
    let norm : Option Json → Option Json := fun v =>
      match v with
      | some .null => none
      | v => v
    match norm assigned.1, norm assigned.2 with
    | some n, some i =>
      match n, action_input_of_json i with
      | .str s, some inp => .action ⟨s, inp⟩
      | _, _ => .pyerror
    | _, _ => .text (dumps j)
  | _ => .pyerror

/-- Source: the string branch of `parse_action`: `json.loads` the candidate,
degrading to plain text (the raw string) when it is not valid JSON. -/
def parse_action_of_str (s : String) : ROut :=
  match json_loads s with
  | none => .text s
  | some j => parse_action_of_json j

/-- Whitespace class of the regex `\s` used in
`extra_json_from_code_block`. -/
def regex_ws (c : Char) : Bool :=
  c = ' ' || c = '\t' || c = '\n' || c = '\r' || c = Char.ofNat 11 || c = Char.ofNat 12

def skip_regex_ws : List Char → List Char
  | [] => []
  | c :: rest => if regex_ws c then skip_regex_ws rest else c :: rest

/-- After a candidate closing bracket, the regex requires `\s*` and then a
triple backtick. -/
def fence_close_ok (cs : List Char) : Bool :=
  match skip_regex_ws cs with
  | c1 :: c2 :: c3 :: _ => c1 = backtick_char && c2 = backtick_char && c3 = backtick_char
  | _ => false

/-- Longest capture for the greedy `.*[]}]` of the fence regex: extend to the
last `]` or the closing brace that is followed by `\s*` and a triple
backtick. -/
def fence_capture_tail : List Char → Option (List Char × List Char)
  | [] => none
  | c :: rest =>
    match fence_capture_tail rest with
    | some (p, r) => some (c :: p, r)
    | none =>
      if (c = ']' ∨ c = rbrace_char) ∧ fence_close_ok rest then some ([c], rest)
      else none

/-- Drop the leading characters matched by the char class `[json]*`
(case-insensitive). -/
def skip_json_class : List Char → List Char
  | [] => []
  | c :: rest =>
    if c.toLower = 'j' ∨ c.toLower = 's' ∨ c.toLower = 'o' ∨ c.toLower = 'n' then
      skip_json_class rest
    else c :: rest

/-- Scan for matches of the fenced-JSON regex
(Python: three backticks, `[json]*`, `\s*`, a bracketed greedy capture,
`\s*`, three backticks), leftmost first, continuing after each match. -/
def fence_find_matches : Nat → List Char → List (List Char)
  | 0, _ => []
  | _, [] => []
  | fuel + 1, c :: rest =>
    match c :: rest with
    | c1 :: c2 :: c3 :: tail =>
      if c1 = backtick_char ∧ c2 = backtick_char ∧ c3 = backtick_char then
        let tail2 := skip_regex_ws (skip_json_class tail)
        match tail2 with
        | d :: drest =>
          if d = '[' ∨ d = lbrace_char then
            match fence_capture_tail (d :: drest) with
            | some (cap, after) =>
              let after2 := (skip_regex_ws after).drop 3
              cap :: fence_find_matches fuel after2
            | none => fence_find_matches fuel rest
          else fence_find_matches fuel rest
        | [] => fence_find_matches fuel rest
      else fence_find_matches fuel rest
    | _ => []

/-- Model of `re.sub(r"^[a-zA-Z]+\n", "", text, flags=re.MULTILINE)`: delete
every line that consists only of ASCII letters and is terminated by a
newline. -/
def remove_alpha_lines (s : String) : String :=
  let parts := (split_newline s.data).map String.mk
  let rec rejoin : List String → String
    | [] => ""
    | [last] => last
    | p :: rest =>
      if p ≠ "" ∧ p.data.all (fun c => c.isAlpha) then rejoin rest
      else p ++ "\n" ++ rejoin rest
  rejoin parts

/-- Source: the nested `extra_json_from_code_block` in
`CotAgentOutputParser.handle_react_stream_output`: find fenced JSON blocks,
strip letter-only prefix lines, `json.loads` each; any parse failure makes
the whole extraction return the empty list. -/
def extra_json_from_code_block (code_block : String) : List Json :=
  let blocks := fence_find_matches (code_block.length + 1) code_block.data
  if blocks.isEmpty then []
  else
    let parsed := blocks.map
      (fun b => json_loads (remove_alpha_lines (py_strip (String.mk b))))
    if parsed.all (fun p => p.isSome) then parsed.map (fun p => p.getD Json.null)
    else []

/-- Parser state of `CotAgentOutputParser.handle_react_stream_output`: the
mutable locals that live across characters and across response chunks. -/
structure PState where
  code_block_cache : String
  code_block_delimiter_count : Nat
  in_code_block : Bool
  json_cache : String
  json_quote_count : Nat
  in_json : Bool
  got_json : Bool
  action_cache : String
  action_idx : Nat
  thought_cache : String
  thought_idx : Nat
  last_character : String
deriving Repr, DecidableEq, Inhabited

def init_pstate : PState :=
  { code_block_cache := ""
    code_block_delimiter_count := 0
    in_code_block := false
    json_cache := ""
    json_quote_count := 0
    in_json := false
    got_json := false
    action_cache := ""
    action_idx := 0
    thought_cache := ""
    thought_idx := 0
    last_character := "" }

def action_kw : String := "action:"
def thought_kw : String := "thought:"

/-- Index into a keyword, as the Python `action_str[action_idx]`; the index
is kept below the length by the state machine, so the default is never
observable. -/
def kw_get (s : String) (i : Nat) : Char := s.data.getD i ' '

/-- Model of `delta.replace("`", "")` for a single character. -/
def strip_backtick (c : Char) : String :=
  if c = backtick_char then "" else String.singleton c

/-- Lines 141-154 of the source: backtick accumulation into the fence cache,
and verbatim flush of a pending partial fence when a non-backtick character
arrives outside a code block. -/
def step_fence (st : PState) (delta : Char) : PState × List ROut :=
  if !st.in_json ∧ delta = backtick_char then
    ({ st with last_character := String.singleton delta,
               code_block_cache := st.code_block_cache.push delta,
               code_block_delimiter_count := st.code_block_delimiter_count + 1 }, [])
  else
    if !st.in_code_block then
      if st.code_block_delimiter_count > 0 then
        ({ st with last_character := String.singleton delta,
                   code_block_cache := "", code_block_delimiter_count := 0 },
         [ROut.text st.code_block_cache])
      else
        ({ st with code_block_cache := "", code_block_delimiter_count := 0 },
         [])
    else
      ({ st with last_character := String.singleton delta,
                 code_block_cache := st.code_block_cache.push delta,
                 code_block_delimiter_count := 0 }, [])

/-- Tail of the keyword block: emit the current character when a keyword
match failed on a non-separator boundary (`yield_delta`). The Bool result
is false when the Python code executes `continue`. -/
def step_kw_tail (st : PState) (delta : Char) (yd : Bool) (outs : List ROut) :
    PState × List ROut × Bool :=
  if yd then
    ({ st with last_character := String.singleton delta },
     outs ++ [ROut.text (String.singleton delta)], false)
  else (st, outs, true)

/-- Lines 189-218 of the source: matching of the `thought:` keyword. -/
def step_kw_thought (st : PState) (delta : Char) (yd : Bool) (outs : List ROut) :
    PState × List ROut × Bool :=
  if delta.toLower = kw_get thought_kw st.thought_idx ∧ st.thought_idx = 0 then
    if st.last_character ≠ "\n" ∧ st.last_character ≠ " " ∧ st.last_character ≠ "" then
      step_kw_tail st delta true outs
    else
      if st.thought_idx + 1 = thought_kw.length then
        ({ st with last_character := String.singleton delta,
                   thought_cache := "", thought_idx := 0 }, outs, false)
      else
        ({ st with last_character := String.singleton delta,
                   thought_cache := st.thought_cache.push delta,
                   thought_idx := st.thought_idx + 1 }, outs, false)
  else if delta.toLower = kw_get thought_kw st.thought_idx ∧ st.thought_idx > 0 then
    if st.thought_idx + 1 = thought_kw.length then
      ({ st with last_character := String.singleton delta,
                 thought_cache := "", thought_idx := 0 }, outs, false)
    else
      ({ st with last_character := String.singleton delta,
                 thought_cache := st.thought_cache.push delta,
                 thought_idx := st.thought_idx + 1 }, outs, false)
  else
    if st.thought_cache ≠ "" then
      step_kw_tail
        { st with last_character := String.singleton delta,
                  thought_cache := "", thought_idx := 0 }
        delta yd (outs ++ [ROut.text st.thought_cache])
    else
      step_kw_tail st delta yd outs

/-- Lines 157-225 of the source: matching of the `action:` keyword followed
by the `thought:` keyword and the `yield_delta` tail. -/
def step_kw (st : PState) (delta : Char) : PState × List ROut × Bool :=
  if delta.toLower = kw_get action_kw st.action_idx ∧ st.action_idx = 0 then
    if st.last_character ≠ "\n" ∧ st.last_character ≠ " " ∧ st.last_character ≠ "" then
      step_kw_thought st delta true []
    else
      if st.action_idx + 1 = action_kw.length then
        ({ st with last_character := String.singleton delta,
                   action_cache := "", action_idx := 0 }, [], false)
      else
        ({ st with last_character := String.singleton delta,
                   action_cache := st.action_cache.push delta,
                   action_idx := st.action_idx + 1 }, [], false)
  else if delta.toLower = kw_get action_kw st.action_idx ∧ st.action_idx > 0 then
    if st.action_idx + 1 = action_kw.length then
      ({ st with last_character := String.singleton delta,
                 action_cache := "", action_idx := 0 }, [], false)
    else
      ({ st with last_character := String.singleton delta,
                 action_cache := st.action_cache.push delta,
                 action_idx := st.action_idx + 1 }, [], false)
  else
    if st.action_cache ≠ "" then
      step_kw_thought
        { st with last_character := String.singleton delta,
                  action_cache := "", action_idx := 0 }
        delta false [ROut.text st.action_cache]
    else
      step_kw_thought st delta false []

/-- Lines 228-243 of the source: a completed triple-backtick fence toggles
code-block mode; on the closing fence the cache goes through JSON extraction
and each extracted block is parsed into an action; an extraction failure
executes `continue` without toggling. -/
def step_fence_complete (st : PState) (delta : Char) : PState × List ROut × Bool :=
  if st.code_block_delimiter_count = 3 then
    if st.in_code_block then
      if (extra_json_from_code_block st.code_block_cache).isEmpty then
        ({ st with last_character := String.singleton delta }, [], false)
      else
        ({ st with last_character := String.singleton delta,
                   code_block_cache := "",
                   in_code_block := !st.in_code_block,
                   code_block_delimiter_count := 0 },
         (extra_json_from_code_block st.code_block_cache).map
           parse_action_of_json,
         true)
    else
      ({ st with in_code_block := !st.in_code_block,
                 code_block_delimiter_count := 0 }, [], true)
  else (st, [], true)

/-- Lines 271-278 of the source: once a JSON object has closed, the next
processed character flushes the JSON cache through `parse_action`. -/
def step_json_flush (st : PState) (delta : Char) : PState × List ROut × Bool :=
  if st.got_json then
    ({ st with got_json := false, last_character := String.singleton delta,
               json_cache := "", json_quote_count := 0, in_json := false },
     [parse_action_of_str st.json_cache], true)
  else (st, [], true)

/-- Lines 246-278 of the source: brace-depth-aware buffering of standalone
JSON objects outside code blocks; the character that closes the outermost
brace executes `continue` with `got_json` set. -/
def step_json (st : PState) (delta : Char) : PState × List ROut × Bool :=
  if !st.in_code_block then
    if delta = lbrace_char then
      step_json_flush
        { st with json_quote_count := st.json_quote_count + 1,
                  in_json := true,
                  last_character := String.singleton delta,
                  json_cache := st.json_cache.push delta }
        delta
    else if delta = rbrace_char then
      if st.json_quote_count > 0 then
        if st.json_quote_count - 1 = 0 then
          ({ st with last_character := String.singleton delta,
                     json_cache := st.json_cache.push delta,
                     json_quote_count := st.json_quote_count - 1,
                     in_json := false, got_json := true }, [], false)
        else
          step_json_flush
            { st with last_character := String.singleton delta,
                      json_cache := st.json_cache.push delta,
                      json_quote_count := st.json_quote_count - 1 }
            delta
      else
        step_json_flush
          { st with last_character := String.singleton delta,
                    json_cache := st.json_cache.push delta }
          delta
    else
      if st.in_json then
        step_json_flush
          { st with last_character := String.singleton delta,
                    json_cache := st.json_cache.push delta }
          delta
      else
        step_json_flush st delta
  else (st, [], true)

/-- Lines 281-283 of the source: plain characters outside code blocks and
JSON objects are emitted immediately with backticks stripped. -/
def step_plain (st : PState) (delta : Char) : PState × List ROut :=
  if !st.in_code_block ∧ !st.in_json then
    ({ st with last_character := String.singleton delta },
     [ROut.text (strip_backtick delta)])
  else (st, [])

/-- Blocks that follow the keyword block for one character: fence
completion, JSON buffering, plain emission; each can be cut short by a
Python `continue`. -/
def step_char_rest (st : PState) (delta : Char) (outs : List ROut) :
    PState × List ROut :=
  match step_fence_complete st delta with
  | (st1, o1, false) => (st1, outs ++ o1)
  | (st1, o1, true) =>
    match step_json st1 delta with
    | (st2, o2, false) => (st2, outs ++ o1 ++ o2)
    | (st2, o2, true) =>
      let (st3, o3) := step_plain st2 delta
      (st3, outs ++ o1 ++ o2 ++ o3)

/-- Process one character of a response chunk: the body of the
`while index < len(response_content)` loop of the source. -/
def step_char (st : PState) (delta : Char) : PState × List ROut :=
  let (st0, o0) := step_fence st delta
  if !st0.in_code_block ∧ !st0.in_json then
    match step_kw st0 delta with
    | (st1, o1, false) => (st1, o0 ++ o1)
    | (st1, o1, true) => step_char_rest st1 delta (o0 ++ o1)
  else step_char_rest st0 delta o0

/-- Fold of `step_char` over a fragment, accumulating yielded values. -/
def step_chunk (acc : PState × List ROut) (s : String) : PState × List ROut :=
  s.data.foldl (fun acc c =>
    let (st, outs) := acc
    let (st1, o) := step_char st c
    (st1, outs ++ o)) acc

/-- Lines 288-293 of the source: end-of-stream flush of the fence cache and
the JSON cache. -/
def eos_flush (st : PState) : List ROut :=
  (if st.code_block_cache ≠ "" then [ROut.text st.code_block_cache] else []) ++
    (if st.json_cache ≠ "" then [parse_action_of_str st.json_cache] else [])

/-- Model of one streamed LLM chunk as consumed by the parser: its text
content and optional usage metadata. -/
structure LLMChunkIn where
  content : String
  usage : Option Json
deriving Repr, Inhabited

/-- Fold of the whole chunk stream: parser state with accumulated outputs,
plus the usage side channel (`usage_dict`), overwritten by every chunk that
carries usage. -/
def react_fold (chunks : List LLMChunkIn) :
    (PState × List ROut) × Option Json :=
  chunks.foldl
    (fun acc ch =>
      (step_chunk acc.1 ch.content,
        match ch.usage with
        | some x => some x
        | none => acc.2))
    ((init_pstate, []), none)

/-- Source: `CotAgentOutputParser.handle_react_stream_output`: drive every
chunk's characters through the state machine, record the last usage seen
into the side channel, and flush the caches at end of stream. -/
def handle_react_stream_output (chunks : List LLMChunkIn) :
    List ROut × Option Json :=
  ((react_fold chunks).1.2 ++ eos_flush (react_fold chunks).1.1,
    (react_fold chunks).2)

/-- The parser applied to plain text fragments (no usage metadata), which is
how the reasoning loop's claims observe it. -/
def react_stream (frags : List String) : List ROut :=
  (handle_react_stream_output (frags.map (fun s => ⟨s, none⟩))).1

/-- Source: `ToolInvokeMeta` in `api/core/tools/entities/tool_entities.py`. -/
structure ToolInvokeMeta where
  time_cost : Rat
  error : Option String
  tool_config : Option (List (String × Json))
deriving Repr, Inhabited

/-- Source: `ToolInvokeMeta.empty`. -/
def ToolInvokeMeta.empty : ToolInvokeMeta :=
  { time_cost := 0, error := none, tool_config := some [] }

/-- Source: `ToolInvokeMeta.error_instance`. -/
def ToolInvokeMeta.error_instance (e : String) : ToolInvokeMeta :=
  { time_cost := 0, error := some e, tool_config := some [] }

/-- Modelled from the spec: `LLMUsage` (its defining module
`core/model_runtime/entities/llm_entities.py` is not part of the provided
sources; the spec describes it as six token/price counters). Token counts
are naturals, prices are rationals. -/
structure LLMUsage where
  prompt_tokens : Nat
  completion_tokens : Nat
  total_tokens : Nat
  prompt_price : Rat
  completion_price : Rat
  total_price : Rat
deriving Repr, DecidableEq, Inhabited

/-- Modelled from the spec: `LLMUsage.empty_usage`, the all-zero total. -/
def LLMUsage.empty_usage : LLMUsage :=
  { prompt_tokens := 0, completion_tokens := 0, total_tokens := 0
    prompt_price := 0, completion_price := 0, total_price := 0 }

/-- Source: the nested `increase_usage` defined identically in
`CotAgentRunner.run` and `FunctionCallAgentRunner.run`: the running total
starts absent and each per-call usage is added field by field. -/
def increase_usage (final_llm_usage : Option LLMUsage) (usage : LLMUsage) :
    Option LLMUsage :=
  match final_llm_usage with
  | none => some usage
  | some l =>
    some
      { prompt_tokens := l.prompt_tokens + usage.prompt_tokens
        completion_tokens := l.completion_tokens + usage.completion_tokens
        total_tokens := l.total_tokens + usage.total_tokens
        prompt_price := l.prompt_price + usage.prompt_price
        completion_price := l.completion_price + usage.completion_price
        total_price := l.total_price + usage.total_price }

/-- Componentwise order on usage totals. -/
def usage_le (a b : LLMUsage) : Prop :=
  a.prompt_tokens ≤ b.prompt_tokens ∧
    a.completion_tokens ≤ b.completion_tokens ∧
    a.total_tokens ≤ b.total_tokens ∧
    a.prompt_price ≤ b.prompt_price ∧
    a.completion_price ≤ b.completion_price ∧
    a.total_price ≤ b.total_price

instance (a b : LLMUsage) : Decidable (usage_le a b) := by
  unfold usage_le
  infer_instance

/-- All prices in a usage record are non-negative (token counts are
naturals already). -/
def usage_nonneg (u : LLMUsage) : Prop :=
  0 ≤ u.prompt_price ∧ 0 ≤ u.completion_price ∧ 0 ≤ u.total_price

instance (u : LLMUsage) : Decidable (usage_nonneg u) := by
  unfold usage_nonneg
  infer_instance

/-- The value a usage accumulator denotes: absent means the all-zero
total. -/
def usage_value (o : Option LLMUsage) : LLMUsage :=
  o.getD LLMUsage.empty_usage

/-- Arguments handed to `ToolEngine.agent_invoke`: a JSON value (a dict, or
whatever a string argument decoded to) or a raw string that failed the
opportunistic decode. -/
inductive ToolCallArgs where
  | json (j : Json)
  | raw (s : String)
deriving Repr, Inhabited

/-- External collaborator: `ToolEngine.agent_invoke` restricted to the
pieces the loop observes, as a function from tool name and arguments to the
observation text and invoke meta. -/
def ToolEngine := String → ToolCallArgs → String × ToolInvokeMeta

/-- Source: `CotAgentRunner._handle_invoke_action`: unknown tools produce
the synthetic observation and an error-tagged meta without raising; string
arguments are opportunistically JSON-decoded before dispatch. -/
def handle_invoke_action (tool_names : List String) (engine : ToolEngine)
    (action : AgentAction) : String × ToolInvokeMeta :=
  let tool_call_name := action.action_name
  if !tool_names.contains tool_call_name then
    let answer := "there is not a tool named " ++ tool_call_name
    (answer, ToolInvokeMeta.error_instance answer)
  else
    let tool_call_args : ToolCallArgs :=
      match action.action_input with
      | .inputStr s =>
        match json_loads s with
        | some j => .json j
        | none => .raw s
      | .inputDict kvs => .json (Json.obj kvs)
    engine tool_call_name tool_call_args

/-- Stringification of a final answer's action input
(lines 233-241 of `cot_agent_runner.py`): a dict is JSON-serialized, a
string is taken as is. -/
def final_answer_of_input : ActionInputV → String
  | .inputDict kvs => dumps (Json.obj kvs)
  | .inputStr s => s

/-- Fold of the parsed chunk stream into the iteration's scratchpad
(lines 174-193 of `cot_agent_runner.py`): an action chunk overwrites the
scratchpad's action fields, a text chunk extends `agent_response` and
`thought` and is streamed to the caller.  A `pyerror` chunk is an exception
inside the generator: the fold stops and the iteration is marked crashed. -/
def cot_fold_chunks (chunks : List ROut) :
    AgentScratchpadUnit × List String × Bool :=
  let rec go (sp : AgentScratchpadUnit) (streamed : List String) :
      List ROut → AgentScratchpadUnit × List String × Bool
    | [] => (sp, streamed, false)
    | ROut.action a :: rest =>
      let d := dumps (action_model_dump a)
      go { sp with agent_response := sp.agent_response ++ d,
                   action_str := d,
                   action := some a } streamed rest
    | ROut.text s :: rest =>
      go { sp with agent_response := sp.agent_response ++ s,
                   thought := sp.thought ++ s } (streamed ++ [s]) rest
    | ROut.pyerror :: _ => (sp, streamed, true)
  go { agent_response := "", thought := "", action_str := "",
       observation := "", action := none } [] chunks

/-- Line 197 of `cot_agent_runner.py`: the thought is stripped and defaults
to a fixed non-empty sentence. -/
def cot_default_thought (t : String) : String :=
  if py_strip t = "" then "I am thinking about how to help you" else py_strip t

/-- Lines 227-276 of `cot_agent_runner.py`: decide between terminating with
a final answer and dispatching the action as a tool call.  Returns the new
`function_call_state`, the new `final_answer`, the updated scratchpad and
the number of tool dispatches performed. -/
def cot_handle_result (tool_names : List String) (engine : ToolEngine)
    (sp : AgentScratchpadUnit) (final_answer : String) :
    Bool × String × AgentScratchpadUnit × Nat :=
  match sp.action with
  | none => (false, "", sp, 0)
  | some a =>
    if str_lower a.action_name = "final answer" then
      (false, final_answer_of_input a.action_input, sp, 0)
    else
      let (tool_invoke_response, _meta) := handle_invoke_action tool_names engine a
      (true,
       final_answer,
       { sp with observation := tool_invoke_response,
                 agent_response := tool_invoke_response },
       1)

/-- Observable outcome of one chain-of-thought iteration
(lines 127-276 of `cot_agent_runner.py`). -/
structure CotIterResult where
  fcs : Bool
  final_answer : String
  scratchpad : AgentScratchpadUnit
  dispatches : Nat
  crashed : Bool
deriving Repr, Inhabited

/-- One chain-of-thought iteration applied to the parsed chunk stream: fold
the chunks into a scratchpad, default the thought, then decide between
terminating and dispatching. -/
def cot_iterate (tool_names : List String) (engine : ToolEngine)
    (chunks : List ROut) (final_answer : String) : CotIterResult :=
  let f := cot_fold_chunks chunks
  if f.2.2 then
    { fcs := false, final_answer := final_answer, scratchpad := f.1,
      dispatches := 0, crashed := true }
  else
    let sp1 := { f.1 with thought := cot_default_thought f.1.thought }
    let h := cot_handle_result tool_names engine sp1 final_answer
    { fcs := h.1, final_answer := h.2.1, scratchpad := h.2.2.1,
      dispatches := h.2.2.2, crashed := false }

/-- Aggregate observable outcome of a chain-of-thought run. -/
structure CotRunResult where
  iterations : Nat
  steps : List Nat
  final_answer : String
  dispatches : Nat
  scratchpads : List AgentScratchpadUnit
  crashed : Bool
deriving Repr, Inhabited

/-- Source: the `while function_call_state and iteration_step <=
max_iteration_steps` loop of `CotAgentRunner.run`.  The model function
produces the streamed text of each iteration given the iteration number and
whether tools are still offered in the prompt; on the final allowed
iteration the prompt tools are removed.  The fuel argument is an upper
bound on recursion depth; `cot_run` supplies `max_steps + 1`, which the
guard `step ≤ max_steps` keeps from ever running out. -/
def cot_loop_go (tool_names : List String) (engine : ToolEngine)
    (model : Nat → Bool → String) (max_steps : Nat) :
    Nat → Bool → Nat → List String → String → CotRunResult
  | 0, _, _, _, fa =>
    { iterations := 0, steps := [], final_answer := fa, dispatches := 0,
      scratchpads := [], crashed := false }
  | fuel + 1, fcs, step, ptools, fa =>
    if fcs ∧ step ≤ max_steps then
      let ptools2 := if step = max_steps then [] else ptools
      let chunks := react_stream [model step (!ptools2.isEmpty)]
      let it := cot_iterate tool_names engine chunks fa
      if it.crashed then
        { iterations := 1, steps := [step], final_answer := fa,
          dispatches := 0, scratchpads := [], crashed := true }
      else
        let rest := cot_loop_go tool_names engine model max_steps fuel it.fcs
          (step + 1) ptools2 it.final_answer
        { iterations := rest.iterations + 1
          steps := step :: rest.steps
          final_answer := rest.final_answer
          dispatches := rest.dispatches + it.dispatches
          scratchpads := it.scratchpad :: rest.scratchpads
          crashed := rest.crashed }
    else
      { iterations := 0, steps := [], final_answer := fa, dispatches := 0,
        scratchpads := [], crashed := false }

/-- Line 87 of `cot_agent_runner.py` and line 77 of `fc_agent_runner.py`:
`max_iteration_steps = min(app_config.agent.max_iteration, 99) + 1`. -/
def max_iteration_steps (max_iteration : Nat) : Nat :=
  min max_iteration 99 + 1

/-- A complete chain-of-thought run: iteration counter starts at 1,
`function_call_state` starts true, the prompt tools start as all tool
instances, and the final answer starts empty. -/
def cot_run (tool_names : List String) (engine : ToolEngine)
    (model : Nat → Bool → String) (max_iteration : Nat) : CotRunResult :=
  cot_loop_go tool_names engine model (max_iteration_steps max_iteration)
    (max_iteration_steps max_iteration + 1) true 1 tool_names ""

/-- Source: one element of `AssistantPromptMessage.tool_calls` as read by
the function-calling runner: id, function name, raw argument string. -/
structure AssistantToolCall where
  id : String
  name : String
  arguments : String
deriving Repr, DecidableEq, Inhabited

/-- One streamed chunk of a function-calling model response: text content
plus tool-call directives. -/
structure FcChunk where
  content : String
  tool_calls : List AssistantToolCall
deriving Repr, Inhabited

/-- Source: `FunctionCallAgentRunner.check_tool_calls` (and its blocking
twin): a chunk carries tool calls when the list is non-empty. -/
def check_tool_calls (tool_calls : List AssistantToolCall) : Bool :=
  !tool_calls.isEmpty

/-- Source: `FunctionCallAgentRunner.extract_tool_calls`: each tool call's
argument string is decoded with a bare `json.loads` whenever it is
non-empty, so an invalid argument string raises an uncaught
`json.JSONDecodeError`, modelled as the error branch. -/
def extract_tool_calls (tool_calls : List AssistantToolCall) :
    Except String (List (String × String × Json)) :=
  match tool_calls with
  | [] => .ok []
  | tc :: rest =>
    let args :=
      if tc.arguments ≠ "" then
        match json_loads tc.arguments with
        | some j => Except.ok j
        | none => Except.error ("JSONDecodeError: " ++ tc.arguments)
      else Except.ok (Json.obj [])
    match args with
    | .error e => .error e
    | .ok a =>
      match extract_tool_calls rest with
      | .error e => .error e
      | .ok l => .ok ((tc.id, tc.name, a) :: l)

/-- Source: `FunctionCallAgentRunner.extract_blocking_tool_calls`, byte for
byte the same extraction applied to a blocking (non-streamed) result. -/
def extract_blocking_tool_calls (tool_calls : List AssistantToolCall) :
    Except String (List (String × String × Json)) :=
  match tool_calls with
  | [] => .ok []
  | tc :: rest =>
    let args :=
      if tc.arguments ≠ "" then
        match json_loads tc.arguments with
        | some j => Except.ok j
        | none => Except.error ("JSONDecodeError: " ++ tc.arguments)
      else Except.ok (Json.obj [])
    match args with
    | .error e => .error e
    | .ok a =>
      match extract_blocking_tool_calls rest with
      | .error e => .error e
      | .ok l => .ok ((tc.id, tc.name, a) :: l)

/-- Source: lines 150-184 of `fc_agent_runner.py`: consume the streamed
chunks, set `function_call_state` when any chunk carries tool calls, extend
the tool-call list via extraction (whose exception aborts the stream), and
accumulate the response text. -/
def fc_consume_chunks (chunks : List FcChunk) :
    Bool × List (String × String × Json) × String × Option String :=
  let rec go (fcs : Bool) (tcs : List (String × String × Json))
      (response : String) :
      List FcChunk → Bool × List (String × String × Json) × String × Option String
    | [] => (fcs, tcs, response, none)
    | ch :: rest =>
      if check_tool_calls ch.tool_calls then
        match extract_tool_calls ch.tool_calls with
        | .error e => (true, tcs, response, some e)
        | .ok l => go true (tcs ++ l) (response ++ ch.content) rest
      else go fcs tcs (response ++ ch.content) rest
  go false [] "" chunks

/-- Outcome of dispatching one tool call
(lines 271-311 of `fc_agent_runner.py`). -/
structure ToolCallResponse where
  tool_call_id : String
  tool_call_name : String
  tool_response : String
  meta : ToolInvokeMeta
deriving Repr, Inhabited

/-- Source: the dispatch loop body of `FunctionCallAgentRunner.run`:
unknown tool names produce the synthetic observation with an error-tagged
meta instead of raising; known tools go to the engine. -/
def fc_dispatch (tool_names : List String) (engine : ToolEngine)
    (tc : String × String × Json) : ToolCallResponse :=
  let (tool_call_id, tool_call_name, tool_call_args) := tc
  if !tool_names.contains tool_call_name then
    { tool_call_id := tool_call_id
      tool_call_name := tool_call_name
      tool_response := "there is not a tool named " ++ tool_call_name
      meta := ToolInvokeMeta.error_instance
        ("there is not a tool named " ++ tool_call_name) }
  else
    let (r, m) := engine tool_call_name (.json tool_call_args)
    { tool_call_id := tool_call_id, tool_call_name := tool_call_name,
      tool_response := r, meta := m }

/-- Aggregate observable outcome of a function-calling run.  `error` holds
the payload of an uncaught exception (a failed tool-argument decode), which
aborts the run. -/
structure FcRunResult where
  iterations : Nat
  steps : List Nat
  final_answer : String
  dispatches : Nat
  responses : List ToolCallResponse
  error : Option String
deriving Repr, Inhabited

/-- Source: the `while function_call_state and iteration_step <=
max_iteration_steps` loop of `FunctionCallAgentRunner.run`.  Per iteration
the accumulated response text plus a newline is appended to the final
answer, then every extracted tool call is dispatched in order. -/
def fc_loop_go (tool_names : List String) (engine : ToolEngine)
    (model : Nat → Bool → List FcChunk) (max_steps : Nat) :
    Nat → Bool → Nat → List String → String → FcRunResult
  | 0, _, _, _, fa =>
    { iterations := 0, steps := [], final_answer := fa, dispatches := 0,
      responses := [], error := none }
  | fuel + 1, fcs, step, ptools, fa =>
    if fcs ∧ step ≤ max_steps then
      let ptools2 := if step = max_steps then [] else ptools
      let chunks := model step (!ptools2.isEmpty)
      let c := fc_consume_chunks chunks
      if c.2.2.2.isSome then
        { iterations := 1, steps := [step], final_answer := fa,
          dispatches := 0, responses := [], error := c.2.2.2 }
      else
        let fa2 := fa ++ c.2.2.1 ++ "\n"
        let rs := c.2.1.map (fc_dispatch tool_names engine)
        let rest := fc_loop_go tool_names engine model max_steps fuel c.1
          (step + 1) ptools2 fa2
        { iterations := rest.iterations + 1
          steps := step :: rest.steps
          final_answer := rest.final_answer
          dispatches := rest.dispatches + rs.length
          responses := rs ++ rest.responses
          error := rest.error }
    else
      { iterations := 0, steps := [], final_answer := fa, dispatches := 0,
        responses := [], error := none }

/-- A complete function-calling run. -/
def fc_run (tool_names : List String) (engine : ToolEngine)
    (model : Nat → Bool → List FcChunk) (max_iteration : Nat) : FcRunResult :=
  fc_loop_go tool_names engine model (max_iteration_steps max_iteration)
    (max_iteration_steps max_iteration + 1) true 1 tool_names ""

theorem range'_succ_one (s n : Nat) :
    List.range' s (n + 1) = s :: List.range' (s + 1) n := rfl

theorem cot_loop_go_iterations_le (tool_names : List String)
    (engine : ToolEngine) (model : Nat → Bool → String)
    (max_steps fuel : Nat) (fcs : Bool) (step : Nat) (ptools : List String)
    (fa : String) :
    (cot_loop_go tool_names engine model max_steps fuel fcs step
        ptools fa).iterations ≤ max_steps + 1 - step := by
  induction fuel generalizing fcs step ptools fa with
  | zero => exact Nat.zero_le _
  | succ fuel ih =>
    simp only [cot_loop_go]
    split
    · rename_i h
      obtain ⟨hf, hs⟩ := h
      split <;> split
      · dsimp only
        omega
      · dsimp only
        exact Nat.le_trans (Nat.add_le_add_right (ih _ _ _ _) 1) (by omega)
      · dsimp only
        omega
      · dsimp only
        exact Nat.le_trans (Nat.add_le_add_right (ih _ _ _ _) 1) (by omega)
    · exact Nat.zero_le _

theorem cot_loop_go_steps (tool_names : List String)
    (engine : ToolEngine) (model : Nat → Bool → String)
    (max_steps fuel : Nat) (fcs : Bool) (step : Nat) (ptools : List String)
    (fa : String) :
    (cot_loop_go tool_names engine model max_steps fuel fcs step
        ptools fa).steps =
      List.range' step
        (cot_loop_go tool_names engine model max_steps fuel fcs step
          ptools fa).iterations := by
  induction fuel generalizing fcs step ptools fa with
  | zero => rfl
  | succ fuel ih =>
    simp only [cot_loop_go]
    split
    · split <;> split
      · rfl
      · dsimp only
        rw [range'_succ_one, ih]
      · rfl
      · dsimp only
        rw [range'_succ_one, ih]
    · rfl

theorem fc_loop_go_iterations_le (tool_names : List String)
    (engine : ToolEngine) (model : Nat → Bool → List FcChunk)
    (max_steps fuel : Nat) (fcs : Bool) (step : Nat) (ptools : List String)
    (fa : String) :
    (fc_loop_go tool_names engine model max_steps fuel fcs step
        ptools fa).iterations ≤ max_steps + 1 - step := by
  induction fuel generalizing fcs step ptools fa with
  | zero => exact Nat.zero_le _
  | succ fuel ih =>
    simp only [fc_loop_go]
    split
    · rename_i h
      obtain ⟨hf, hs⟩ := h
      split <;> split
      · dsimp only
        omega
      · dsimp only
        exact Nat.le_trans (Nat.add_le_add_right (ih _ _ _ _) 1) (by omega)
      · dsimp only
        omega
      · dsimp only
        exact Nat.le_trans (Nat.add_le_add_right (ih _ _ _ _) 1) (by omega)
    · exact Nat.zero_le _

theorem fc_loop_go_steps (tool_names : List String)
    (engine : ToolEngine) (model : Nat → Bool → List FcChunk)
    (max_steps fuel : Nat) (fcs : Bool) (step : Nat) (ptools : List String)
    (fa : String) :
    (fc_loop_go tool_names engine model max_steps fuel fcs step
        ptools fa).steps =
      List.range' step
        (fc_loop_go tool_names engine model max_steps fuel fcs step
          ptools fa).iterations := by
  induction fuel generalizing fcs step ptools fa with
  | zero => rfl
  | succ fuel ih =>
    simp only [fc_loop_go]
    split
    · split <;> split
      · rfl
      · dsimp only
        rw [range'_succ_one, ih]
      · rfl
      · dsimp only
        rw [range'_succ_one, ih]
    · rfl

/-- C1: for every configured `maxIterations` value and every model behavior
(including one that never emits a terminal action or tool call), a single
run of either reasoning loop executes at most `maxIterations + 1`
iterations, hard-capped at 100 total; the iteration counter takes the
consecutive values 1, 2, ... and is strictly increasing; and the run
terminates (both run functions are total). -/
theorem c1_loop_iteration_bound (max_iteration : Nat)
    (tool_names : List String) (engine : ToolEngine)
    (model_c : Nat → Bool → String) (model_f : Nat → Bool → List FcChunk) :
    ((cot_run tool_names engine model_c max_iteration).iterations ≤
        max_iteration + 1 ∧
      (cot_run tool_names engine model_c max_iteration).iterations ≤ 100 ∧
      (cot_run tool_names engine model_c max_iteration).steps =
        List.range' 1
          (cot_run tool_names engine model_c max_iteration).iterations ∧
      (cot_run tool_names engine model_c max_iteration).steps.Pairwise
        (· < ·)) ∧
    ((fc_run tool_names engine model_f max_iteration).iterations ≤
        max_iteration + 1 ∧
      (fc_run tool_names engine model_f max_iteration).iterations ≤ 100 ∧
      (fc_run tool_names engine model_f max_iteration).steps =
        List.range' 1
          (fc_run tool_names engine model_f max_iteration).iterations ∧
      (fc_run tool_names engine model_f max_iteration).steps.Pairwise
        (· < ·)) := by
  have hc := cot_loop_go_iterations_le tool_names engine model_c
    (max_iteration_steps max_iteration) (max_iteration_steps max_iteration + 1)
    true 1 tool_names ""
  have hcs := cot_loop_go_steps tool_names engine model_c
    (max_iteration_steps max_iteration) (max_iteration_steps max_iteration + 1)
    true 1 tool_names ""
  have hf := fc_loop_go_iterations_le tool_names engine model_f
    (max_iteration_steps max_iteration) (max_iteration_steps max_iteration + 1)
    true 1 tool_names ""
  have hfs := fc_loop_go_steps tool_names engine model_f
    (max_iteration_steps max_iteration) (max_iteration_steps max_iteration + 1)
    true 1 tool_names ""
  unfold cot_run fc_run
  unfold max_iteration_steps at *
  refine ⟨⟨by omega, by omega, hcs, ?_⟩, ⟨by omega, by omega, hfs, ?_⟩⟩
  · rw [hcs]
    exact List.pairwise_lt_range' 1 _ 1 (by omega)
  · rw [hfs]
    exact List.pairwise_lt_range' 1 _ 1 (by omega)

theorem string_data_append (s t : String) : (s ++ t).data = s.data ++ t.data := by
  cases s
  cases t
  rfl

theorem step_chunk_append (acc : PState × List ROut) (s t : String) :
    step_chunk acc (s ++ t) = step_chunk (step_chunk acc s) t := by
  unfold step_chunk
  rw [string_data_append, List.foldl_append]

theorem step_chunk_empty (acc : PState × List ROut) :
    step_chunk acc "" = acc := rfl

theorem foldl_step_chunk_foldl_append (frags : List String)
    (acc : PState × List ROut) (s0 : String) :
    step_chunk acc (frags.foldl (· ++ ·) s0) =
      frags.foldl step_chunk (step_chunk acc s0) := by
  induction frags generalizing acc s0 with
  | nil => rfl
  | cons f rest ih =>
    simp only [List.foldl_cons]
    rw [ih, step_chunk_append]

theorem foldl_step_chunk_join (frags : List String)
    (acc : PState × List ROut) :
    frags.foldl step_chunk acc = step_chunk acc (String.join frags) := by
  unfold String.join
  rw [foldl_step_chunk_foldl_append, step_chunk_empty]

theorem react_stream_as_fold (frags : List String) :
    react_stream frags =
      (frags.foldl step_chunk (init_pstate, [])).2 ++
        eos_flush (frags.foldl step_chunk (init_pstate, [])).1 := by
  unfold react_stream handle_react_stream_output react_fold
  have h : ∀ (fs : List String) (acc : PState × List ROut) (u : Option Json),
      (fs.map (fun s => (⟨s, none⟩ : LLMChunkIn))).foldl
          (fun acc2 ch =>
            ((step_chunk acc2.1 ch.content),
              match ch.usage with
              | some x => some x
              | none => acc2.2))
          (acc, u) =
        (fs.foldl step_chunk acc, u) := by
    intro fs
    induction fs with
    | nil => intro acc u; rfl
    | cons f rest ih => intro acc u; simp only [List.map_cons, List.foldl_cons]; exact ih _ _
  rw [h]


/-- C2: re-chunking invariance of the streaming parser: splitting the input
text into arbitrary fragments (including mid-keyword and mid-brace splits)
yields the same sequence of text and Action values as feeding the whole
text as a single fragment; in particular the four-way split of the
well-formed action JSON from the spec parses to the single
`Action(action_name="search", action_input={"q":"weather"})`. -/
theorem c2_parser_rechunking_invariance (frags : List String) :
    react_stream frags = react_stream [String.join frags] ∧
      react_stream
          ["\x7b\"acti", "on\": \"sea", "rch\", \"action_inp",
            "ut\": \x7b\"q\":\"weather\"\x7d\x7d"] =
        [ROut.action
          { action_name := "search",
            action_input := ActionInputV.inputDict [("q", Json.str "weather")] }] := by
  constructor
  · rw [react_stream_as_fold, react_stream_as_fold]
    rw [foldl_step_chunk_join]
    rfl
  · simp +decide [react_stream, handle_react_stream_output, react_fold,
      step_chunk, eos_flush, init_pstate, step_char, step_char_rest,
      step_fence, step_kw, step_kw_thought, step_kw_tail, step_fence_complete,
      step_json, step_json_flush, step_plain, strip_backtick, kw_get,
      action_kw, thought_kw, backtick_char, lbrace_char, rbrace_char,
      String.push,
      show ("\x7b\"acti" : String).data =
        [Char.ofNat 123, '\"', 'a', 'c', 't', 'i'] from rfl,
      show ("on\": \"sea" : String).data =
        ['o', 'n', '\"', ':', ' ', '\"', 's', 'e', 'a'] from rfl,
      show ("rch\", \"action_inp" : String).data =
        ['r', 'c', 'h', '\"', ',', ' ', '\"', 'a', 'c', 't', 'i', 'o', 'n',
          '_', 'i', 'n', 'p'] from rfl,
      show ("ut\": \x7b\"q\":\"weather\"\x7d\x7d" : String).data =
        ['u', 't', '\"', ':', ' ', Char.ofNat 123, '\"', 'q', '\"', ':', '\"',
          'w', 'e', 'a', 't', 'h', 'e', 'r', '\"', Char.ofNat 125,
          Char.ofNat 125] from rfl,
      show ("" : String) = String.mk [] from rfl]
    rfl

/-- A trivially successful tool engine used to instantiate concrete runs. -/
def dummy_engine : ToolEngine := fun _ _ => ("ok", ToolInvokeMeta.empty)

theorem empty_string_mk : ("" : String) = String.mk [] := rfl

theorem data_c3_text :
    ("Thought: I can answer directly.\nFinal Answer: 42" : String).data =
      ['T', 'h', 'o', 'u', 'g', 'h', 't', ':', ' ', 'I', ' ', 'c', 'a', 'n',
        ' ', 'a', 'n', 's', 'w', 'e', 'r', ' ', 'd', 'i', 'r', 'e', 'c', 't',
        'l', 'y', '.', '\n', 'F', 'i', 'n', 'a', 'l', ' ', 'A', 'n', 's', 'w',
        'e', 'r', ':', ' ', '4', '2'] := rfl

/-- C3 fails on the code: when the model's entire streamed output is
`"Thought: I can answer directly.\nFinal Answer: 42"`, the loop does stop
after iteration 1 with zero tool dispatches, but the recorded final answer
is the empty string, not `"42"`: the parser treats `Final Answer: 42` as
plain thought text and the runner only takes a final answer from a parsed
action. -/
theorem c3_counterexample :
    (cot_run [] dummy_engine
        (fun _ _ => "Thought: I can answer directly.\nFinal Answer: 42")
        10).iterations = 1 ∧
    (cot_run [] dummy_engine
        (fun _ _ => "Thought: I can answer directly.\nFinal Answer: 42")
        10).dispatches = 0 ∧
    (cot_run [] dummy_engine
        (fun _ _ => "Thought: I can answer directly.\nFinal Answer: 42")
        10).final_answer = "" ∧
    (cot_run [] dummy_engine
        (fun _ _ => "Thought: I can answer directly.\nFinal Answer: 42")
        10).final_answer ≠ "42" := by
  refine ⟨?_, ?_, ?_, ?_⟩ <;>
    simp +decide [cot_run, max_iteration_steps, cot_loop_go, cot_iterate,
      cot_fold_chunks, cot_fold_chunks.go, cot_default_thought,
      cot_handle_result, handle_invoke_action, final_answer_of_input,
      py_strip, py_ws, str_lower, dummy_engine,
      react_stream, handle_react_stream_output, react_fold, step_chunk,
      eos_flush, init_pstate, step_char, step_char_rest, step_fence, step_kw,
      step_kw_thought, step_kw_tail, step_fence_complete, step_json,
      step_json_flush, step_plain, strip_backtick, kw_get, action_kw,
      thought_kw, backtick_char, lbrace_char, rbrace_char, String.push,
      String.singleton, string_data_append, data_c3_text, empty_string_mk]

/-- C3 amended: with the model output
`"Thought: I can answer directly.\nFinal Answer: 42"` the loop terminates
at iteration 1 with zero tool dispatches; the `Thought:` keyword is
swallowed and the rest of the text (including `Final Answer: 42`) is
recorded as the iteration's thought, no action is parsed, and the recorded
final answer is the empty string. -/
theorem c3_amended_terminates_with_empty_final_answer :
    (cot_run [] dummy_engine
        (fun _ _ => "Thought: I can answer directly.\nFinal Answer: 42")
        10).iterations = 1 ∧
    (cot_run [] dummy_engine
        (fun _ _ => "Thought: I can answer directly.\nFinal Answer: 42")
        10).dispatches = 0 ∧
    (cot_run [] dummy_engine
        (fun _ _ => "Thought: I can answer directly.\nFinal Answer: 42")
        10).final_answer = "" ∧
    (cot_run [] dummy_engine
        (fun _ _ => "Thought: I can answer directly.\nFinal Answer: 42")
        10).scratchpads.map (fun sp => sp.thought) =
      ["I can answer directly.\nFinal Answer: 42"] ∧
    (cot_run [] dummy_engine
        (fun _ _ => "Thought: I can answer directly.\nFinal Answer: 42")
        10).scratchpads.map (fun sp => sp.action.isNone) = [true] := by
  refine ⟨?_, ?_, ?_, ?_, ?_⟩ <;>
    simp +decide [cot_run, max_iteration_steps, cot_loop_go, cot_iterate,
      cot_fold_chunks, cot_fold_chunks.go, cot_default_thought,
      cot_handle_result, handle_invoke_action, final_answer_of_input,
      py_strip, py_ws, str_lower, dummy_engine,
      react_stream, handle_react_stream_output, react_fold, step_chunk,
      eos_flush, init_pstate, step_char, step_char_rest, step_fence, step_kw,
      step_kw_thought, step_kw_tail, step_fence_complete, step_json,
      step_json_flush, step_plain, strip_backtick, kw_get, action_kw,
      thought_kw, backtick_char, lbrace_char, rbrace_char, String.push,
      String.singleton, string_data_append, data_c3_text, empty_string_mk]

/-- The C4 counterexample action: named `"final answer "` with a trailing
space, which a whitespace-insensitive comparison would identify with the
sentinel. -/
def c4_action : AgentAction :=
  { action_name := "final answer ", action_input := ActionInputV.inputStr "42" }

def c4_scratchpad : AgentScratchpadUnit :=
  { agent_response := "", thought := "t", action_str := "", observation := "",
    action := some c4_action }

/-- C4 fails on the code: the termination test of the loop is
`action_name.lower() == "final answer"`, an exact lowercased string
equality with no whitespace normalization.  The action named
`"final answer "` (trailing space) is equal to the sentinel under a
case-insensitive and whitespace-insensitive comparison, yet the loop
dispatches it as a tool call (continuing the loop with one dispatch)
instead of terminating — even though `AgentScratchpadUnit.is_final`
classifies the very same scratchpad as final. -/
theorem c4_counterexample :
    (cot_handle_result [] dummy_engine c4_scratchpad "").1 = true ∧
    (cot_handle_result [] dummy_engine c4_scratchpad "").2.2.2 = 1 ∧
    scratchpad_is_final c4_scratchpad = true := by
  refine ⟨?_, ?_, ?_⟩ <;>
    simp +decide [cot_handle_result, handle_invoke_action, dummy_engine,
      str_lower, scratchpad_is_final, contains_sub, contains_sub_chars,
      final_answer_of_input, c4_scratchpad, c4_action, empty_string_mk]

/-- C4 amended: with an action present, the loop terminates instead of
dispatching exactly when the lowercased action name is exactly the string
`"final answer"` (case-insensitive but not whitespace-insensitive); in that
case the final answer is the action's input, JSON-stringified when the
input is a structured map and taken verbatim when it is a string; otherwise
exactly one tool dispatch happens and the loop continues. -/
theorem c4_amended_final_answer_sentinel (tool_names : List String)
    (engine : ToolEngine) (sp : AgentScratchpadUnit) (fa : String)
    (a : AgentAction) (h : sp.action = some a) :
    ((cot_handle_result tool_names engine sp fa).1 = false ↔
      str_lower a.action_name = "final answer") ∧
    (str_lower a.action_name = "final answer" →
      (cot_handle_result tool_names engine sp fa).2.1 =
        final_answer_of_input a.action_input) ∧
    (str_lower a.action_name ≠ "final answer" →
      (cot_handle_result tool_names engine sp fa).2.2.2 = 1) ∧
    (∀ kvs, final_answer_of_input (ActionInputV.inputDict kvs) =
      dumps (Json.obj kvs)) ∧
    (∀ s, final_answer_of_input (ActionInputV.inputStr s) = s) := by
  unfold cot_handle_result
  rw [h]
  dsimp only
  refine ⟨?_, ?_, ?_, fun kvs => rfl, fun s => rfl⟩ <;> split <;>
    simp_all [final_answer_of_input]

def c4_witness_action : AgentAction :=
  { action_name := "Final Answer", action_input := ActionInputV.inputStr "42" }

def c4_witness_scratchpad : AgentScratchpadUnit :=
  { agent_response := "", thought := "t", action_str := "", observation := "",
    action := some c4_witness_action }

theorem c4_amended_final_answer_sentinel_witness :
    c4_witness_scratchpad.action = some c4_witness_action ∧
    (((cot_handle_result [] dummy_engine c4_witness_scratchpad "").1 =
        false ↔ str_lower c4_witness_action.action_name = "final answer") ∧
      (str_lower c4_witness_action.action_name = "final answer" →
        (cot_handle_result [] dummy_engine c4_witness_scratchpad "").2.1 =
          final_answer_of_input c4_witness_action.action_input) ∧
      (str_lower c4_witness_action.action_name ≠ "final answer" →
        (cot_handle_result [] dummy_engine c4_witness_scratchpad "").2.2.2 =
          1) ∧
      (∀ kvs, final_answer_of_input (ActionInputV.inputDict kvs) =
        dumps (Json.obj kvs)) ∧
      (∀ s, final_answer_of_input (ActionInputV.inputStr s) = s)) :=
  ⟨rfl,
    c4_amended_final_answer_sentinel [] dummy_engine c4_witness_scratchpad ""
      c4_witness_action rfl⟩

/-- The action a chunk stream leaves in the scratchpad: the last action
value of the stream. -/
def last_action (chunks : List ROut) : Option AgentAction :=
  chunks.foldl
    (fun acc c =>
      match c with
      | ROut.action a => some a
      | _ => acc)
    none

theorem cot_fold_chunks_go_action (chunks : List ROut) :
    ∀ (sp : AgentScratchpadUnit) (streamed : List String),
      (cot_fold_chunks.go sp streamed chunks).2.2 = false →
      (cot_fold_chunks.go sp streamed chunks).1.action =
        chunks.foldl
          (fun acc c =>
            match c with
            | ROut.action a => some a
            | _ => acc)
          sp.action := by
  induction chunks with
  | nil =>
    intro sp streamed _
    rfl
  | cons c rest ih =>
    intro sp streamed h
    cases c with
    | text s =>
      simp only [cot_fold_chunks.go] at h ⊢
      simpa using ih _ _ h
    | action a =>
      simp only [cot_fold_chunks.go] at h ⊢
      simpa using ih _ _ h
    | pyerror =>
      simp [cot_fold_chunks.go] at h

/-- C5 fails on the code as stated (the first action would be kept); what
holds instead: when the iteration does not crash, the scratchpad's action
is the last action yielded by the parser in that iteration — every later
action chunk overwrites the earlier one — and the iteration's recorded
action (after tool handling) is that same last action. -/
theorem c5_amended_last_action_wins (tool_names : List String)
    (engine : ToolEngine) (chunks : List ROut) (fa : String)
    (h : (cot_fold_chunks chunks).2.2 = false) :
    (cot_fold_chunks chunks).1.action = last_action chunks ∧
    (cot_iterate tool_names engine chunks fa).scratchpad.action =
      last_action chunks := by
  have h1 : (cot_fold_chunks chunks).1.action = last_action chunks := by
    unfold cot_fold_chunks last_action
    exact cot_fold_chunks_go_action chunks _ _ h
  refine ⟨h1, ?_⟩
  unfold cot_iterate
  rw [if_neg (by simp [h])]
  dsimp only
  unfold cot_handle_result
  split
  · dsimp only
    rw [← h1]
  · split <;> (dsimp only; rw [← h1])

theorem c5_amended_last_action_wins_witness :
    (cot_fold_chunks
        [ROut.action
            { action_name := "x", action_input := ActionInputV.inputStr "1" },
          ROut.action
            { action_name := "y",
              action_input := ActionInputV.inputStr "2" }]).2.2 = false ∧
    ((cot_fold_chunks
          [ROut.action
              { action_name := "x", action_input := ActionInputV.inputStr "1" },
            ROut.action
              { action_name := "y",
                action_input := ActionInputV.inputStr "2" }]).1.action =
        last_action
          [ROut.action
              { action_name := "x", action_input := ActionInputV.inputStr "1" },
            ROut.action
              { action_name := "y",
                action_input := ActionInputV.inputStr "2" }] ∧
      (cot_iterate [] dummy_engine
            [ROut.action
                { action_name := "x",
                  action_input := ActionInputV.inputStr "1" },
              ROut.action
                { action_name := "y",
                  action_input := ActionInputV.inputStr "2" }]
            "").scratchpad.action =
        last_action
          [ROut.action
              { action_name := "x", action_input := ActionInputV.inputStr "1" },
            ROut.action
              { action_name := "y",
                action_input := ActionInputV.inputStr "2" }]) :=
  ⟨rfl,
    c5_amended_last_action_wins [] dummy_engine
      [ROut.action { action_name := "x", action_input := ActionInputV.inputStr "1" },
        ROut.action { action_name := "y", action_input := ActionInputV.inputStr "2" }]
      "" rfl⟩

def c5_action_x : AgentAction :=
  { action_name := "x", action_input := ActionInputV.inputStr "1" }

def c5_action_y : AgentAction :=
  { action_name := "y", action_input := ActionInputV.inputStr "2" }

theorem data_c5_text :
    ("\x7b\"action\": \"x\", \"action_input\": \"1\"\x7d \x7b\"action\": \"y\", \"action_input\": \"2\"\x7d" :
        String).data =
      [Char.ofNat 123, '\"', 'a', 'c', 't', 'i', 'o', 'n', '\"', ':', ' ',
        '\"', 'x', '\"', ',', ' ', '\"', 'a', 'c', 't', 'i', 'o', 'n', '_',
        'i', 'n', 'p', 'u', 't', '\"', ':', ' ', '\"', '1', '\"',
        Char.ofNat 125, ' ', Char.ofNat 123, '\"', 'a', 'c', 't', 'i', 'o',
        'n', '\"', ':', ' ', '\"', 'y', '\"', ',', ' ', '\"', 'a', 'c', 't',
        'i', 'o', 'n', '_', 'i', 'n', 'p', 'u', 't', '\"', ':', ' ', '\"',
        '2', '\"', Char.ofNat 125] := rfl


theorem c5_parse_x :
    parse_action_of_str "\x7b\"action\": \"x\", \"action_input\": \"1\"\x7d" =
      ROut.action c5_action_x := rfl

theorem c5_parse_y :
    parse_action_of_str "\x7b\"action\": \"y\", \"action_input\": \"2\"\x7d" =
      ROut.action c5_action_y := rfl

/-- C5 counterexample: in an iteration whose streamed text contains two
action objects, the parser yields both actions in order, and the iteration
records the second (last) one, not the first: the claim that the first
observed action is the iteration's action fails on this input. -/
theorem c5_counterexample :
    react_stream
        ["\x7b\"action\": \"x\", \"action_input\": \"1\"\x7d \x7b\"action\": \"y\", \"action_input\": \"2\"\x7d"] =
      [ROut.action c5_action_x, ROut.text " ", ROut.action c5_action_y] ∧
    (cot_fold_chunks
        [ROut.action c5_action_x, ROut.text " ",
          ROut.action c5_action_y]).1.action = some c5_action_y ∧
    c5_action_y ≠ c5_action_x := by
  refine ⟨?_, ?_, ?_⟩
  · simp +decide [react_stream, handle_react_stream_output, react_fold,
      step_chunk, eos_flush, init_pstate, step_char, step_char_rest,
      step_fence, step_kw, step_kw_thought, step_kw_tail, step_fence_complete,
      step_json, step_json_flush, step_plain, strip_backtick, kw_get,
      action_kw, thought_kw, backtick_char, lbrace_char, rbrace_char,
      String.push, String.singleton, string_data_append, data_c5_text,
      empty_string_mk, c5_parse_x, c5_parse_y]
  · rfl
  · intro hxy
    have h2 : c5_action_y.action_name = c5_action_x.action_name := by rw [hxy]
    simp [c5_action_x, c5_action_y] at h2

/-- C6: in both dialects, a dispatched action or tool call whose name does
not resolve to a known tool instance does not raise: it produces the
observation string `there is not a tool named {name}` together with an
error-tagged invoke meta, and the loop continues (the text loop keeps
`function_call_state` true after such a dispatch, and the function-calling
loop sets it as soon as a chunk carries tool calls). -/
theorem c6_tool_not_found_is_recoverable (tool_names : List String)
    (engine : ToolEngine) (a : AgentAction) (tcid tcname : String)
    (args : Json) (sp : AgentScratchpadUnit) (fa : String)
    (h1 : tool_names.contains a.action_name = false)
    (h2 : tool_names.contains tcname = false)
    (h3 : sp.action = some a)
    (h4 : str_lower a.action_name ≠ "final answer") :
    handle_invoke_action tool_names engine a =
      ("there is not a tool named " ++ a.action_name,
        ToolInvokeMeta.error_instance
          ("there is not a tool named " ++ a.action_name)) ∧
    (handle_invoke_action tool_names engine a).2.error =
      some ("there is not a tool named " ++ a.action_name) ∧
    fc_dispatch tool_names engine (tcid, tcname, args) =
      { tool_call_id := tcid, tool_call_name := tcname,
        tool_response := "there is not a tool named " ++ tcname,
        meta := ToolInvokeMeta.error_instance
          ("there is not a tool named " ++ tcname) } ∧
    (fc_dispatch tool_names engine (tcid, tcname, args)).meta.error =
      some ("there is not a tool named " ++ tcname) ∧
    (cot_handle_result tool_names engine sp fa).1 = true ∧
    (fc_consume_chunks [⟨"", [⟨tcid, tcname, ""⟩]⟩]).1 = true := by
  have ha : handle_invoke_action tool_names engine a =
      ("there is not a tool named " ++ a.action_name,
        ToolInvokeMeta.error_instance
          ("there is not a tool named " ++ a.action_name)) := by
    have h1m : a.action_name ∉ tool_names := by simpa using h1
    simp [handle_invoke_action, h1m]
  have hd : fc_dispatch tool_names engine (tcid, tcname, args) =
      { tool_call_id := tcid, tool_call_name := tcname,
        tool_response := "there is not a tool named " ++ tcname,
        meta := ToolInvokeMeta.error_instance
          ("there is not a tool named " ++ tcname) } := by
    have h2m : tcname ∉ tool_names := by simpa using h2
    simp [fc_dispatch, h2m]
  refine ⟨ha, ?_, hd, ?_, ?_, rfl⟩
  · rw [ha]
    rfl
  · rw [hd]
    rfl
  · unfold cot_handle_result
    rw [h3]
    dsimp only
    rw [if_neg h4]

def c6_action : AgentAction :=
  { action_name := "foo", action_input := ActionInputV.inputStr "bar" }

def c6_scratchpad : AgentScratchpadUnit :=
  { agent_response := "", thought := "t", action_str := "", observation := "",
    action := some c6_action }

theorem c6_tool_not_found_is_recoverable_witness :
    ([] : List String).contains c6_action.action_name = false ∧
    (handle_invoke_action [] dummy_engine c6_action =
      ("there is not a tool named " ++ c6_action.action_name,
        ToolInvokeMeta.error_instance
          ("there is not a tool named " ++ c6_action.action_name)) ∧
      (handle_invoke_action [] dummy_engine c6_action).2.error =
        some ("there is not a tool named " ++ c6_action.action_name) ∧
      fc_dispatch [] dummy_engine ("a", "foo", Json.obj []) =
        { tool_call_id := "a", tool_call_name := "foo",
          tool_response := "there is not a tool named " ++ "foo",
          meta := ToolInvokeMeta.error_instance
            ("there is not a tool named " ++ "foo") } ∧
      (fc_dispatch [] dummy_engine ("a", "foo", Json.obj [])).meta.error =
        some ("there is not a tool named " ++ "foo") ∧
      (cot_handle_result [] dummy_engine c6_scratchpad "").1 = true ∧
      (fc_consume_chunks [⟨"", [⟨"a", "foo", ""⟩]⟩]).1 = true) :=
  ⟨rfl,
    c6_tool_not_found_is_recoverable [] dummy_engine c6_action "a" "foo"
      (Json.obj []) c6_scratchpad "" rfl rfl rfl (by decide)⟩

theorem string_append_assoc (a b c : String) :
    a ++ b ++ c = a ++ (b ++ c) := by
  cases a
  cases b
  cases c
  apply congrArg String.mk
  exact List.append_assoc _ _ _

def c8_model_cot : Nat → Bool → String := fun _ avail =>
  if avail then "\x7b\"action\": \"mytool\", \"action_input\": \"x\"\x7d"
  else "hello"

def c8_model_fc : Nat → Bool → List FcChunk := fun _ avail =>
  if avail then [⟨"", [⟨"a", "mytool", ""⟩]⟩] else [⟨"hello", []⟩]

theorem data_c8_tool :
    ("\x7b\"action\": \"mytool\", \"action_input\": \"x\"\x7d" : String).data =
      [Char.ofNat 123, '\"', 'a', 'c', 't', 'i', 'o', 'n', '\"', ':', ' ',
        '\"', 'm', 'y', 't', 'o', 'o', 'l', '\"', ',', ' ', '\"', 'a', 'c',
        't', 'i', 'o', 'n', '_', 'i', 'n', 'p', 'u', 't', '\"', ':', ' ',
        '\"', 'x', '\"', Char.ofNat 125] := rfl

theorem data_hello :
    ("hello" : String).data = ['h', 'e', 'l', 'l', 'o'] := rfl

theorem c8_parse_tool :
    parse_action_of_str
        "\x7b\"action\": \"mytool\", \"action_input\": \"x\"\x7d" =
      ROut.action
        { action_name := "mytool", action_input := ActionInputV.inputStr "x" } :=
  rfl

/-- C8 fails on the code: with `maxIterations = 1` and a model that
requests a tool whenever tools are offered, exactly 2 iterations do occur,
but the final answer is not the text the model produced on iteration 2: the
text loop records the empty string (iteration-2 text only becomes the
thought), and the function-calling loop records every iteration's response
text joined with trailing newlines. -/
theorem c8_counterexample :
    (cot_run ["mytool"] dummy_engine c8_model_cot 1).iterations = 2 ∧
    (cot_run ["mytool"] dummy_engine c8_model_cot 1).final_answer = "" ∧
    (cot_run ["mytool"] dummy_engine c8_model_cot 1).final_answer ≠
      "hello" ∧
    (fc_run ["mytool"] dummy_engine c8_model_fc 1).iterations = 2 ∧
    (fc_run ["mytool"] dummy_engine c8_model_fc 1).final_answer =
      "\nhello\n" ∧
    (fc_run ["mytool"] dummy_engine c8_model_fc 1).final_answer ≠
      "hello" := by
  refine ⟨?_, ?_, ?_, ?_, ?_, ?_⟩ <;>
    simp +decide [cot_run, fc_run, max_iteration_steps, cot_loop_go,
      fc_loop_go, cot_iterate, cot_fold_chunks, cot_fold_chunks.go,
      cot_default_thought, cot_handle_result, handle_invoke_action,
      final_answer_of_input, py_strip, py_ws, str_lower, dummy_engine,
      c8_model_cot, c8_model_fc, fc_consume_chunks, fc_consume_chunks.go,
      check_tool_calls, extract_tool_calls, fc_dispatch,
      react_stream, handle_react_stream_output, react_fold, step_chunk,
      eos_flush, init_pstate, step_char, step_char_rest, step_fence, step_kw,
      step_kw_thought, step_kw_tail, step_fence_complete, step_json,
      step_json_flush, step_plain, strip_backtick, kw_get, action_kw,
      thought_kw, backtick_char, lbrace_char, rbrace_char, String.push,
      String.singleton, string_data_append, data_c8_tool, data_hello,
      c8_parse_tool, empty_string_mk]

theorem cot_iterate_thought_only (tool_names : List String)
    (engine : ToolEngine) (chunks : List ROut) (fa : String)
    (h1 : (cot_fold_chunks chunks).1.action.isNone = true)
    (h2 : (cot_fold_chunks chunks).2.2 = false) :
    (cot_iterate tool_names engine chunks fa).fcs = false ∧
    (cot_iterate tool_names engine chunks fa).final_answer = "" ∧
    (cot_iterate tool_names engine chunks fa).dispatches = 0 ∧
    (cot_iterate tool_names engine chunks fa).crashed = false := by
  have h1e : (cot_fold_chunks chunks).1.action = none :=
    Option.isNone_iff_eq_none.mp h1
  unfold cot_iterate cot_handle_result
  simp [h2, h1e]

theorem c8_iter1_eval :
    (cot_iterate ["mytool"] dummy_engine
        (react_stream
          ["\x7b\"action\": \"mytool\", \"action_input\": \"x\"\x7d"])
        "").fcs = true ∧
    (cot_iterate ["mytool"] dummy_engine
        (react_stream
          ["\x7b\"action\": \"mytool\", \"action_input\": \"x\"\x7d"])
        "").final_answer = "" ∧
    (cot_iterate ["mytool"] dummy_engine
        (react_stream
          ["\x7b\"action\": \"mytool\", \"action_input\": \"x\"\x7d"])
        "").crashed = false := by
  refine ⟨?_, ?_, ?_⟩ <;>
    simp +decide [cot_iterate, cot_fold_chunks, cot_fold_chunks.go,
      cot_default_thought, cot_handle_result, handle_invoke_action,
      final_answer_of_input, py_strip, py_ws, str_lower, dummy_engine,
      react_stream, handle_react_stream_output, react_fold, step_chunk,
      eos_flush, init_pstate, step_char, step_char_rest, step_fence, step_kw,
      step_kw_thought, step_kw_tail, step_fence_complete, step_json,
      step_json_flush, step_plain, strip_backtick, kw_get, action_kw,
      thought_kw, backtick_char, lbrace_char, rbrace_char, String.push,
      String.singleton, string_data_append, data_c8_tool, c8_parse_tool,
      empty_string_mk]

/-- C8 amended: with `maxIterations = 1` and a model that requests a tool
on the iteration where tools are offered, exactly 2 iterations occur
(iteration 2 with tools withheld); the text-dialect run records the empty
final answer whenever iteration 2 parses no action (its text only becomes
the thought), and the function-calling run records every iteration's
response text, each followed by a newline — iteration 2's text is embedded
in that concatenation rather than being the final answer itself. -/
theorem c8_amended_two_iterations_final_answer (t2 r1 r2 : String)
    (h1 : (cot_fold_chunks (react_stream [t2])).1.action.isNone = true)
    (h2 : (cot_fold_chunks (react_stream [t2])).2.2 = false) :
    (cot_run ["mytool"] dummy_engine
        (fun _ avail =>
          if avail then "\x7b\"action\": \"mytool\", \"action_input\": \"x\"\x7d"
          else t2) 1).iterations = 2 ∧
    (cot_run ["mytool"] dummy_engine
        (fun _ avail =>
          if avail then "\x7b\"action\": \"mytool\", \"action_input\": \"x\"\x7d"
          else t2) 1).final_answer = "" ∧
    (fc_run ["t"] dummy_engine
        (fun _ avail =>
          if avail then [⟨r1, [⟨"a", "t", ""⟩]⟩] else [⟨r2, []⟩])
        1).iterations = 2 ∧
    (fc_run ["t"] dummy_engine
        (fun _ avail =>
          if avail then [⟨r1, [⟨"a", "t", ""⟩]⟩] else [⟨r2, []⟩])
        1).final_answer = r1 ++ "\n" ++ (r2 ++ "\n") := by
  have e1 := cot_iterate_thought_only ["mytool"] dummy_engine
    (react_stream [t2]) "" h1 h2
  refine ⟨?_, ?_, ?_, ?_⟩ <;>
    simp +decide [cot_run, fc_run, max_iteration_steps, cot_loop_go,
      fc_loop_go, fc_consume_chunks, fc_consume_chunks.go, check_tool_calls,
      extract_tool_calls, fc_dispatch, dummy_engine,
      c8_iter1_eval.1, c8_iter1_eval.2.1, c8_iter1_eval.2.2,
      e1.1, e1.2.1, e1.2.2.1, e1.2.2.2,
      String.empty_append, String.append_empty, string_append_assoc]

theorem c8_amended_two_iterations_final_answer_witness :
    ((cot_fold_chunks (react_stream [""])).1.action.isNone = true ∧
      (cot_fold_chunks (react_stream [""])).2.2 = false) ∧
    ((cot_run ["mytool"] dummy_engine
        (fun _ avail =>
          if avail then "\x7b\"action\": \"mytool\", \"action_input\": \"x\"\x7d"
          else "") 1).iterations = 2 ∧
      (cot_run ["mytool"] dummy_engine
        (fun _ avail =>
          if avail then "\x7b\"action\": \"mytool\", \"action_input\": \"x\"\x7d"
          else "") 1).final_answer = "" ∧
      (fc_run ["t"] dummy_engine
          (fun _ avail =>
            if avail then [⟨"", [⟨"a", "t", ""⟩]⟩] else [⟨"", []⟩])
          1).iterations = 2 ∧
      (fc_run ["t"] dummy_engine
          (fun _ avail =>
            if avail then [⟨"", [⟨"a", "t", ""⟩]⟩] else [⟨"", []⟩])
          1).final_answer = "" ++ "\n" ++ ("" ++ "\n")) :=
  ⟨⟨rfl, rfl⟩,
    c8_amended_two_iterations_final_answer "" "" "" rfl rfl⟩

/-- Fieldwise sum of two usage records. -/
def usage_add (a b : LLMUsage) : LLMUsage :=
  { prompt_tokens := a.prompt_tokens + b.prompt_tokens
    completion_tokens := a.completion_tokens + b.completion_tokens
    total_tokens := a.total_tokens + b.total_tokens
    prompt_price := a.prompt_price + b.prompt_price
    completion_price := a.completion_price + b.completion_price
    total_price := a.total_price + b.total_price }

theorem usage_value_increase (acc : Option LLMUsage) (u : LLMUsage) :
    usage_value (increase_usage acc u) = usage_add (usage_value acc) u := by
  cases acc with
  | none =>
    simp [increase_usage, usage_value, usage_add, LLMUsage.empty_usage]
  | some l =>
    simp [increase_usage, usage_value, usage_add]

theorem usage_le_refl (a : LLMUsage) : usage_le a a := by
  unfold usage_le
  exact ⟨le_refl _, le_refl _, le_refl _, le_refl _, le_refl _, le_refl _⟩

theorem usage_le_trans (a b c : LLMUsage) (h1 : usage_le a b)
    (h2 : usage_le b c) : usage_le a c := by
  unfold usage_le at *
  exact ⟨le_trans h1.1 h2.1, le_trans h1.2.1 h2.2.1,
    le_trans h1.2.2.1 h2.2.2.1, le_trans h1.2.2.2.1 h2.2.2.2.1,
    le_trans h1.2.2.2.2.1 h2.2.2.2.2.1, le_trans h1.2.2.2.2.2 h2.2.2.2.2.2⟩

theorem usage_le_add (a u : LLMUsage) (h : usage_nonneg u) :
    usage_le a (usage_add a u) := by
  unfold usage_le usage_add usage_nonneg at *
  refine ⟨Nat.le_add_right _ _, Nat.le_add_right _ _, Nat.le_add_right _ _,
    ?_, ?_, ?_⟩
  · exact le_add_of_nonneg_right h.1
  · exact le_add_of_nonneg_right h.2.1
  · exact le_add_of_nonneg_right h.2.2

theorem usage_foldl_monotone (us : List LLMUsage) :
    ∀ (acc : Option LLMUsage), (∀ x ∈ us, usage_nonneg x) →
      usage_le (usage_value acc)
        (usage_value (us.foldl increase_usage acc)) := by
  induction us with
  | nil =>
    intro acc _
    exact usage_le_refl _
  | cons u rest ih =>
    intro acc h
    refine usage_le_trans _ (usage_value (increase_usage acc u)) _ ?_ ?_
    · rw [usage_value_increase]
      exact usage_le_add _ _ (h u (List.mem_cons_self u rest))
    · exact ih (increase_usage acc u) (fun x hx => h x (List.mem_cons_of_mem u hx))

/-- C9: the running usage total is only ever increased.  Each call of
`increase_usage` (the sole mutator of the running total in both loops) adds
every counter of the incoming per-call usage to the running total — the
absent total counts as all zeros — and therefore, whenever the incoming
usages have non-negative prices (token counts are naturals), the total is
monotone non-decreasing in every component across any sequence of merges;
no operation ever decrements a component. -/
theorem c9_usage_totals_monotone (acc : Option LLMUsage) (u : LLMUsage)
    (us : List LLMUsage) (hu : usage_nonneg u)
    (hus : ∀ x ∈ us, usage_nonneg x) :
    usage_value (increase_usage acc u) = usage_add (usage_value acc) u ∧
    usage_le (usage_value acc) (usage_value (increase_usage acc u)) ∧
    usage_le (usage_value acc)
      (usage_value (us.foldl increase_usage acc)) := by
  refine ⟨usage_value_increase acc u, ?_, usage_foldl_monotone us acc hus⟩
  rw [usage_value_increase]
  exact usage_le_add _ _ hu

theorem c9_usage_totals_monotone_witness :
    (usage_nonneg ⟨3, 4, 7, 1, 2, 3⟩ ∧
      ∀ x ∈ [(⟨1, 1, 2, 0, 0, 0⟩ : LLMUsage)], usage_nonneg x) ∧
    (usage_value (increase_usage none ⟨3, 4, 7, 1, 2, 3⟩) =
        usage_add (usage_value none) ⟨3, 4, 7, 1, 2, 3⟩ ∧
      usage_le (usage_value none)
        (usage_value (increase_usage none ⟨3, 4, 7, 1, 2, 3⟩)) ∧
      usage_le (usage_value none)
        (usage_value
          ([(⟨1, 1, 2, 0, 0, 0⟩ : LLMUsage)].foldl increase_usage none))) :=
  ⟨⟨by decide, by decide⟩,
    c9_usage_totals_monotone none ⟨3, 4, 7, 1, 2, 3⟩
      [⟨1, 1, 2, 0, 0, 0⟩] (by decide) (by decide)⟩

/-- True exactly on the error branch of an `Except`, i.e. when the modelled
Python code raised. -/
def except_is_error {ε α : Type} : Except ε α → Bool
  | .error _ => true
  | .ok _ => false

/-- A tool call whose argument string is non-empty and not valid JSON: the
input on which `json.loads` raises. -/
def bad_arguments (tc : AssistantToolCall) : Bool :=
  tc.arguments != "" && (json_loads tc.arguments).isNone

theorem extract_blocking_eq_streaming (tcs : List AssistantToolCall) :
    extract_blocking_tool_calls tcs = extract_tool_calls tcs := by
  induction tcs with
  | nil => rfl
  | cons tc rest ih =>
    unfold extract_blocking_tool_calls extract_tool_calls
    rw [ih]

theorem extract_tool_calls_error_of_bad (tcs : List AssistantToolCall) :
    tcs.any bad_arguments = true →
    except_is_error (extract_tool_calls tcs) = true := by
  induction tcs with
  | nil => intro h; simp at h
  | cons tc rest ih =>
    intro h
    simp only [List.any_cons, Bool.or_eq_true] at h
    unfold extract_tool_calls
    by_cases ha : tc.arguments = ""
    · have hrest : rest.any bad_arguments = true := by
        rcases h with h | h
        · simp [bad_arguments, ha] at h
        · exact h
      have hr := ih hrest
      cases he : extract_tool_calls rest with
      | error e => simp [ha, he, except_is_error]
      | ok l =>
        rw [he] at hr
        simp [except_is_error] at hr
    · by_cases hp : (json_loads tc.arguments).isNone
      · have hn : json_loads tc.arguments = none :=
          Option.isNone_iff_eq_none.mp hp
        simp [ha, hn, except_is_error]
      · have hrest : rest.any bad_arguments = true := by
          rcases h with h | h
          · simp [bad_arguments, ha, hp] at h
          · exact h
        have hr := ih hrest
        obtain ⟨j, hj⟩ : ∃ j, json_loads tc.arguments = some j := by
          cases hq : json_loads tc.arguments with
          | none =>
            rw [hq] at hp
            simp at hp
          | some j => exact ⟨j, rfl⟩
        cases he : extract_tool_calls rest with
        | error e => simp [ha, hj, he, except_is_error]
        | ok l =>
          rw [he] at hr
          simp [except_is_error] at hr

theorem c10_parse_bad : json_loads "\x7bbad" = none := rfl

/-- C10: in the function-calling dialect, a model-emitted tool call whose
arguments field is a non-empty string that is not valid JSON makes both
`extract_tool_calls` (streaming) and `extract_blocking_tool_calls`
(blocking, an identical extraction) raise an uncaught `json.JSONDecodeError`
(the error branch of the model), and a run receiving such a call aborts at
that iteration instead of degrading the malformed call to text or to an
error observation. -/
theorem c10_malformed_arguments_raise (tcs : List AssistantToolCall)
    (h : tcs.any bad_arguments = true) :
    except_is_error (extract_tool_calls tcs) = true ∧
    except_is_error (extract_blocking_tool_calls tcs) = true ∧
    (fc_run ["t"] dummy_engine
        (fun _ _ => [⟨"", [⟨"a", "t", "\x7bbad"⟩]⟩]) 5).error =
      some ("JSONDecodeError: " ++ "\x7bbad") ∧
    (fc_run ["t"] dummy_engine
        (fun _ _ => [⟨"", [⟨"a", "t", "\x7bbad"⟩]⟩]) 5).iterations = 1 ∧
    (fc_run ["t"] dummy_engine
        (fun _ _ => [⟨"", [⟨"a", "t", "\x7bbad"⟩]⟩]) 5).dispatches = 0 := by
  refine ⟨extract_tool_calls_error_of_bad tcs h, ?_, ?_, ?_, ?_⟩
  · rw [extract_blocking_eq_streaming]
    exact extract_tool_calls_error_of_bad tcs h
  all_goals
    simp +decide [fc_run, max_iteration_steps, fc_loop_go, fc_consume_chunks,
      fc_consume_chunks.go, check_tool_calls, extract_tool_calls,
      fc_dispatch, dummy_engine, c10_parse_bad]

theorem c10_malformed_arguments_raise_witness :
    ([(⟨"a", "t", "\x7bbad"⟩ : AssistantToolCall)].any bad_arguments =
        true) ∧
    except_is_error
        (extract_tool_calls [(⟨"a", "t", "\x7bbad"⟩ : AssistantToolCall)]) =
      true :=
  ⟨by decide,
    (c10_malformed_arguments_raise [⟨"a", "t", "\x7bbad"⟩] (by decide)).1⟩

/-- A string containing a literal backtick character. -/
def str_has_backtick (s : String) : Prop := backtick_char ∈ s.data

instance (s : String) : Decidable (str_has_backtick s) := by
  unfold str_has_backtick
  infer_instance

/-- A string free of backtick characters. -/
def no_backtick_str (s : String) : Prop := ∀ c ∈ s.data, c ≠ backtick_char

instance (s : String) : Decidable (no_backtick_str s) := by
  unfold no_backtick_str
  infer_instance

/-- C7 fails on the code: a pending partial fence (a run of fewer than
three backticks) is flushed verbatim — backticks included — once a
non-backtick character follows outside a code block.  On the input
`a`b` the parser yields the backtick as literal text. -/
theorem c7_counterexample :
    react_stream [String.mk ['a', backtick_char, 'b']] =
      [ROut.text "a", ROut.text "",
        ROut.text (String.singleton backtick_char), ROut.text "b"] ∧
    str_has_backtick (String.singleton backtick_char) := by
  constructor
  · simp +decide [react_stream, handle_react_stream_output, react_fold,
      step_chunk, eos_flush, init_pstate, step_char, step_char_rest,
      step_fence, step_kw, step_kw_thought, step_kw_tail, step_fence_complete,
      step_json, step_json_flush, step_plain, strip_backtick, kw_get,
      action_kw, thought_kw, backtick_char, lbrace_char, rbrace_char,
      String.push, String.singleton, empty_string_mk]
  · decide

theorem backtick_toLower :
    backtick_char.toLower = backtick_char := by decide

theorem kw_get_action_ne_backtick (i : Nat) :
    kw_get action_kw i ≠ backtick_char := by
  unfold kw_get action_kw
  match i with
  | 0 => decide
  | 1 => decide
  | 2 => decide
  | 3 => decide
  | 4 => decide
  | 5 => decide
  | 6 => decide
  | n + 7 =>
    rw [List.getD_eq_default]
    · decide
    · have hlen : ("action:" : String).data.length = 7 := rfl
      omega

theorem kw_get_thought_ne_backtick (i : Nat) :
    kw_get thought_kw i ≠ backtick_char := by
  unfold kw_get thought_kw
  match i with
  | 0 => decide
  | 1 => decide
  | 2 => decide
  | 3 => decide
  | 4 => decide
  | 5 => decide
  | 6 => decide
  | 7 => decide
  | n + 8 =>
    rw [List.getD_eq_default]
    · decide
    · have hlen : ("thought:" : String).data.length = 8 := rfl
      omega

theorem no_backtick_push (s : String) (c : Char) (hs : no_backtick_str s)
    (hc : c ≠ backtick_char) : no_backtick_str (s.push c) := by
  cases s with
  | mk l =>
    intro x hx
    have hx2 : x ∈ l ++ [c] := hx
    rcases List.mem_append.mp hx2 with h | h
    · exact hs x h
    · rw [List.mem_singleton.mp h]
      exact hc

theorem no_backtick_singleton (c : Char) (hc : c ≠ backtick_char) :
    no_backtick_str (String.singleton c) := by
  intro x hx
  have : x ∈ [c] := hx
  rw [List.mem_singleton.mp this]
  exact hc

theorem not_has_of_no_backtick (s : String) (h : no_backtick_str s) :
    ¬ str_has_backtick s := fun hmem => h backtick_char hmem rfl

theorem char_ne_backtick_of_toLower_action (c : Char) (i : Nat)
    (h : c.toLower = kw_get action_kw i) : c ≠ backtick_char := by
  intro he
  rw [he, backtick_toLower] at h
  exact kw_get_action_ne_backtick i h.symm

theorem char_ne_backtick_of_toLower_thought (c : Char) (i : Nat)
    (h : c.toLower = kw_get thought_kw i) : c ≠ backtick_char := by
  intro he
  rw [he, backtick_toLower] at h
  exact kw_get_thought_ne_backtick i h.symm

theorem step_fence_spec (st : PState) (c : Char) :
    ((step_fence st c).2 = [] ∨
      (step_fence st c).2 = [ROut.text st.code_block_cache]) ∧
    (step_fence st c).1.action_cache = st.action_cache ∧
    (step_fence st c).1.thought_cache = st.thought_cache := by
  unfold step_fence
  split
  · exact ⟨Or.inl rfl, rfl, rfl⟩
  · split
    · split
      · exact ⟨Or.inr rfl, rfl, rfl⟩
      · exact ⟨Or.inl rfl, rfl, rfl⟩
    · exact ⟨Or.inl rfl, rfl, rfl⟩

theorem no_backtick_empty : no_backtick_str "" := by
  intro x hx
  exact absurd hx (List.not_mem_nil x)

theorem step_kw_tail_spec (st : PState) (c : Char) (yd : Bool)
    (outs : List ROut) (hyd : yd = true → c ≠ backtick_char) :
    (step_kw_tail st c yd outs).1.action_cache = st.action_cache ∧
    (step_kw_tail st c yd outs).1.thought_cache = st.thought_cache ∧
    ∀ s, ROut.text s ∈ (step_kw_tail st c yd outs).2.1 →
      ROut.text s ∈ outs ∨ ¬ str_has_backtick s := by
  unfold step_kw_tail
  split
  · rename_i hy
    refine ⟨rfl, rfl, fun s hs => ?_⟩
    rcases List.mem_append.mp hs with h | h
    · exact Or.inl h
    · right
      have hse : ROut.text s = ROut.text (String.singleton c) :=
        List.mem_singleton.mp h
      injection hse with hse2
      rw [hse2]
      exact not_has_of_no_backtick _ (no_backtick_singleton c (hyd hy))
  · exact ⟨rfl, rfl, fun s hs => Or.inl hs⟩

theorem step_kw_thought_spec (st : PState) (c : Char) (yd : Bool)
    (outs : List ROut) (ha : no_backtick_str st.action_cache)
    (ht : no_backtick_str st.thought_cache)
    (hyd : yd = true → c ≠ backtick_char) :
    no_backtick_str (step_kw_thought st c yd outs).1.action_cache ∧
    no_backtick_str (step_kw_thought st c yd outs).1.thought_cache ∧
    ∀ s, ROut.text s ∈ (step_kw_thought st c yd outs).2.1 →
      ROut.text s ∈ outs ∨ ¬ str_has_backtick s := by
  unfold step_kw_thought
  split
  · rename_i hm
    have hc := char_ne_backtick_of_toLower_thought c st.thought_idx hm.1
    split
    · have hsp := step_kw_tail_spec st c true outs (fun _ => hc)
      refine ⟨?_, ?_, hsp.2.2⟩
      · rw [hsp.1]
        exact ha
      · rw [hsp.2.1]
        exact ht
    · split
      · exact ⟨ha, no_backtick_empty, fun s hs => Or.inl hs⟩
      · exact ⟨ha, no_backtick_push _ _ ht hc, fun s hs => Or.inl hs⟩
  · split
    · rename_i hm
      have hc := char_ne_backtick_of_toLower_thought c st.thought_idx hm.1
      split
      · exact ⟨ha, no_backtick_empty, fun s hs => Or.inl hs⟩
      · exact ⟨ha, no_backtick_push _ _ ht hc, fun s hs => Or.inl hs⟩
    · split
      · have hsp := step_kw_tail_spec
          { st with last_character := String.singleton c,
                    thought_cache := "", thought_idx := 0 } c yd
          (outs ++ [ROut.text st.thought_cache]) hyd
        refine ⟨?_, ?_, fun s hs => ?_⟩
        · rw [hsp.1]
          exact ha
        · rw [hsp.2.1]
          exact no_backtick_empty
        · rcases hsp.2.2 s hs with h | h
          · rcases List.mem_append.mp h with h2 | h2
            · exact Or.inl h2
            · right
              have hse : ROut.text s = ROut.text st.thought_cache :=
                List.mem_singleton.mp h2
              injection hse with hse2
              rw [hse2]
              exact not_has_of_no_backtick _ ht
          · exact Or.inr h
      · have hsp := step_kw_tail_spec st c yd outs hyd
        refine ⟨?_, ?_, hsp.2.2⟩
        · rw [hsp.1]
          exact ha
        · rw [hsp.2.1]
          exact ht

theorem step_kw_spec (st : PState) (c : Char)
    (ha : no_backtick_str st.action_cache)
    (ht : no_backtick_str st.thought_cache) :
    no_backtick_str (step_kw st c).1.action_cache ∧
    no_backtick_str (step_kw st c).1.thought_cache ∧
    ∀ s, ROut.text s ∈ (step_kw st c).2.1 → ¬ str_has_backtick s := by
  unfold step_kw
  split
  · rename_i hm
    have hc := char_ne_backtick_of_toLower_action c st.action_idx hm.1
    split
    · have hsp := step_kw_thought_spec st c true [] ha ht (fun _ => hc)
      refine ⟨hsp.1, hsp.2.1, fun s hs => ?_⟩
      rcases hsp.2.2 s hs with h | h
      · exact absurd h (List.not_mem_nil _)
      · exact h
    · split
      · exact ⟨no_backtick_empty, ht, fun s hs => absurd hs (List.not_mem_nil _)⟩
      · exact ⟨no_backtick_push _ _ ha hc, ht,
          fun s hs => absurd hs (List.not_mem_nil _)⟩
  · split
    · rename_i hm
      have hc := char_ne_backtick_of_toLower_action c st.action_idx hm.1
      split
      · exact ⟨no_backtick_empty, ht, fun s hs => absurd hs (List.not_mem_nil _)⟩
      · exact ⟨no_backtick_push _ _ ha hc, ht,
          fun s hs => absurd hs (List.not_mem_nil _)⟩
    · split
      · have hsp := step_kw_thought_spec
          { st with last_character := String.singleton c,
                    action_cache := "", action_idx := 0 } c false
          [ROut.text st.action_cache] no_backtick_empty ht (by simp)
        refine ⟨hsp.1, hsp.2.1, fun s hs => ?_⟩
        rcases hsp.2.2 s hs with h | h
        · have hse : ROut.text s = ROut.text st.action_cache :=
            List.mem_singleton.mp h
          injection hse with hse2
          rw [hse2]
          exact not_has_of_no_backtick _ ha
        · exact h
      · have hsp := step_kw_thought_spec st c false [] ha ht (by simp)
        refine ⟨hsp.1, hsp.2.1, fun s hs => ?_⟩
        rcases hsp.2.2 s hs with h | h
        · exact absurd h (List.not_mem_nil _)
        · exact h

theorem step_fence_complete_spec (st : PState) (c : Char) :
    (step_fence_complete st c).1.action_cache = st.action_cache ∧
    (step_fence_complete st c).1.thought_cache = st.thought_cache ∧
    ∀ s, ROut.text s ∈ (step_fence_complete st c).2.1 →
      ∃ j, ROut.text s = parse_action_of_json j := by
  unfold step_fence_complete
  split
  · split
    · split
      · exact ⟨rfl, rfl, fun s hs => absurd hs (List.not_mem_nil _)⟩
      · refine ⟨rfl, rfl, fun s hs => ?_⟩
        obtain ⟨j, _, he⟩ := List.mem_map.mp hs
        exact ⟨j, he.symm⟩
    · exact ⟨rfl, rfl, fun s hs => absurd hs (List.not_mem_nil _)⟩
  · exact ⟨rfl, rfl, fun s hs => absurd hs (List.not_mem_nil _)⟩

theorem step_json_flush_spec (st : PState) (c : Char) :
    (step_json_flush st c).1.action_cache = st.action_cache ∧
    (step_json_flush st c).1.thought_cache = st.thought_cache ∧
    ∀ s, ROut.text s ∈ (step_json_flush st c).2.1 →
      ∃ s2, ROut.text s = parse_action_of_str s2 := by
  unfold step_json_flush
  split
  · refine ⟨rfl, rfl, fun s hs => ?_⟩
    exact ⟨st.json_cache, List.mem_singleton.mp hs⟩
  · exact ⟨rfl, rfl, fun s hs => absurd hs (List.not_mem_nil _)⟩

theorem step_json_spec (st : PState) (c : Char) :
    (step_json st c).1.action_cache = st.action_cache ∧
    (step_json st c).1.thought_cache = st.thought_cache ∧
    ∀ s, ROut.text s ∈ (step_json st c).2.1 →
      ∃ s2, ROut.text s = parse_action_of_str s2 := by
  unfold step_json
  split
  · split
    · exact step_json_flush_spec _ c
    · split
      · split
        · split
          · exact ⟨rfl, rfl, fun s hs => absurd hs (List.not_mem_nil _)⟩
          · exact step_json_flush_spec _ c
        · exact step_json_flush_spec _ c
      · split
        · exact step_json_flush_spec _ c
        · exact step_json_flush_spec _ c
  · exact ⟨rfl, rfl, fun s hs => absurd hs (List.not_mem_nil _)⟩

theorem no_backtick_strip (c : Char) : no_backtick_str (strip_backtick c) := by
  unfold strip_backtick
  split
  · exact no_backtick_empty
  · rename_i h
    exact no_backtick_singleton c h

theorem step_plain_spec (st : PState) (c : Char) :
    (step_plain st c).1.action_cache = st.action_cache ∧
    (step_plain st c).1.thought_cache = st.thought_cache ∧
    ∀ s, ROut.text s ∈ (step_plain st c).2 → ¬ str_has_backtick s := by
  unfold step_plain
  split
  · refine ⟨rfl, rfl, fun s hs => ?_⟩
    have hse : ROut.text s = ROut.text (strip_backtick c) :=
      List.mem_singleton.mp hs
    injection hse with hse2
    rw [hse2]
    exact not_has_of_no_backtick _ (no_backtick_strip c)
  · exact ⟨rfl, rfl, fun s hs => absurd hs (List.not_mem_nil _)⟩

theorem step_char_rest_spec (st : PState) (c : Char) (outs : List ROut) :
    (step_char_rest st c outs).1.action_cache = st.action_cache ∧
    (step_char_rest st c outs).1.thought_cache = st.thought_cache ∧
    ∀ s, ROut.text s ∈ (step_char_rest st c outs).2 →
      ROut.text s ∈ outs ∨ (∃ j, ROut.text s = parse_action_of_json j) ∨
        (∃ s2, ROut.text s = parse_action_of_str s2) ∨
        ¬ str_has_backtick s := by
  have hC := step_fence_complete_spec st c
  unfold step_char_rest
  rcases hCe : step_fence_complete st c with ⟨st1, o1, b1⟩
  rw [hCe] at hC
  cases b1 with
  | false =>
    dsimp only
    refine ⟨hC.1, hC.2.1, fun s hs => ?_⟩
    rcases List.mem_append.mp hs with h | h
    · exact Or.inl h
    · exact Or.inr (Or.inl (hC.2.2 s h))
  | true =>
    dsimp only
    have hJ := step_json_spec st1 c
    rcases hJe : step_json st1 c with ⟨st2, o2, b2⟩
    rw [hJe] at hJ
    cases b2 with
    | false =>
      dsimp only
      refine ⟨hJ.1.trans hC.1, hJ.2.1.trans hC.2.1, fun s hs => ?_⟩
      rcases List.mem_append.mp hs with h | h
      · rcases List.mem_append.mp h with h2 | h2
        · exact Or.inl h2
        · exact Or.inr (Or.inl (hC.2.2 s h2))
      · exact Or.inr (Or.inr (Or.inl (hJ.2.2 s h)))
    | true =>
      dsimp only
      have hP := step_plain_spec st2 c
      rcases hPe : step_plain st2 c with ⟨st3, o3⟩
      rw [hPe] at hP
      dsimp only
      refine ⟨hP.1.trans (hJ.1.trans hC.1),
        hP.2.1.trans (hJ.2.1.trans hC.2.1), fun s hs => ?_⟩
      rcases List.mem_append.mp hs with h | h
      · rcases List.mem_append.mp h with h2 | h2
        · rcases List.mem_append.mp h2 with h3 | h3
          · exact Or.inl h3
          · exact Or.inr (Or.inl (hC.2.2 s h3))
        · exact Or.inr (Or.inr (Or.inl (hJ.2.2 s h2)))
      · exact Or.inr (Or.inr (Or.inr (hP.2.2 s h)))

theorem step_char_spec (st : PState) (c : Char)
    (ha : no_backtick_str st.action_cache)
    (ht : no_backtick_str st.thought_cache) :
    (no_backtick_str (step_char st c).1.action_cache ∧
      no_backtick_str (step_char st c).1.thought_cache) ∧
    ∀ s, ROut.text s ∈ (step_char st c).2 → str_has_backtick s →
      s = st.code_block_cache ∨
        (∃ j, ROut.text s = parse_action_of_json j) ∨
        (∃ s2, ROut.text s = parse_action_of_str s2) := by
  have hF := step_fence_spec st c
  unfold step_char
  rcases hFe : step_fence st c with ⟨st0, o0⟩
  rw [hFe] at hF
  dsimp only at hF
  have ha0 : no_backtick_str st0.action_cache := by
    rw [hF.2.1]
    exact ha
  have ht0 : no_backtick_str st0.thought_cache := by
    rw [hF.2.2]
    exact ht
  have ho0 : ∀ s, ROut.text s ∈ o0 → s = st.code_block_cache := by
    intro s hs
    rcases hF.1 with h | h
    · rw [h] at hs
      exact absurd hs (List.not_mem_nil _)
    · rw [h] at hs
      have h2 := List.mem_singleton.mp hs
      injection h2 with h3
  dsimp only
  split
  · have hK := step_kw_spec st0 c ha0 ht0
    rcases hKe : step_kw st0 c with ⟨st1, o1, b1⟩
    rw [hKe] at hK
    cases b1 with
    | false =>
      dsimp only
      refine ⟨⟨hK.1, hK.2.1⟩, fun s hs hb => ?_⟩
      rcases List.mem_append.mp hs with h | h
      · exact Or.inl (ho0 s h)
      · exact absurd hb (hK.2.2 s h)
    | true =>
      dsimp only
      have hR := step_char_rest_spec st1 c (o0 ++ o1)
      refine ⟨⟨?_, ?_⟩, fun s hs hb => ?_⟩
      · rw [hR.1]
        exact hK.1
      · rw [hR.2.1]
        exact hK.2.1
      · rcases hR.2.2 s hs with h | h | h | h
        · rcases List.mem_append.mp h with h2 | h2
          · exact Or.inl (ho0 s h2)
          · exact absurd hb (hK.2.2 s h2)
        · exact Or.inr (Or.inl h)
        · exact Or.inr (Or.inr h)
        · exact absurd hb h
  · have hR := step_char_rest_spec st0 c o0
    refine ⟨⟨?_, ?_⟩, fun s hs hb => ?_⟩
    · rw [hR.1]
      exact ha0
    · rw [hR.2.1]
      exact ht0
    · rcases hR.2.2 s hs with h | h | h | h
      · exact Or.inl (ho0 s h)
      · exact Or.inr (Or.inl h)
      · exact Or.inr (Or.inr h)
      · exact absurd hb h

/-- C7 fails as stated (see the counterexample); what holds instead: the
immediate per-character emission path strips backticks and the keyword
caches never hold one (an invariant preserved by every step), so a backtick
can reach the output only through the verbatim flush of the fence buffer
`code_block_cache` (mid-stream after a partial fence, or at end of stream)
or through a buffered JSON/code-block candidate degraded to text by
`parse_action`. -/
theorem c7_amended_backtick_only_from_buffers (st : PState) (c : Char)
    (ha : no_backtick_str st.action_cache)
    (ht : no_backtick_str st.thought_cache) :
    (no_backtick_str (step_char st c).1.action_cache ∧
      no_backtick_str (step_char st c).1.thought_cache) ∧
    (∀ s, ROut.text s ∈ (step_char st c).2 → str_has_backtick s →
      s = st.code_block_cache ∨
        (∃ j, ROut.text s = parse_action_of_json j) ∨
        (∃ s2, ROut.text s = parse_action_of_str s2)) ∧
    (∀ s, ROut.text s ∈ eos_flush st → str_has_backtick s →
      s = st.code_block_cache ∨
        (∃ s2, ROut.text s = parse_action_of_str s2)) := by
  refine ⟨(step_char_spec st c ha ht).1, (step_char_spec st c ha ht).2,
    fun s hs _ => ?_⟩
  unfold eos_flush at hs
  rcases List.mem_append.mp hs with h | h
  · by_cases hc : st.code_block_cache ≠ ""
    · rw [if_pos hc] at h
      have h2 := List.mem_singleton.mp h
      injection h2 with h3
      exact Or.inl h3
    · rw [if_neg hc] at h
      exact absurd h (List.not_mem_nil _)
  · by_cases hj : st.json_cache ≠ ""
    · rw [if_pos hj] at h
      exact Or.inr ⟨st.json_cache, List.mem_singleton.mp h⟩
    · rw [if_neg hj] at h
      exact absurd h (List.not_mem_nil _)

theorem c7_amended_backtick_only_from_buffers_witness :
    (no_backtick_str init_pstate.action_cache ∧
      no_backtick_str init_pstate.thought_cache) ∧
    ((no_backtick_str (step_char init_pstate 'x').1.action_cache ∧
        no_backtick_str (step_char init_pstate 'x').1.thought_cache) ∧
      (∀ s, ROut.text s ∈ (step_char init_pstate 'x').2 →
        str_has_backtick s →
        s = init_pstate.code_block_cache ∨
          (∃ j, ROut.text s = parse_action_of_json j) ∨
          (∃ s2, ROut.text s = parse_action_of_str s2)) ∧
      (∀ s, ROut.text s ∈ eos_flush init_pstate → str_has_backtick s →
        s = init_pstate.code_block_cache ∨
          (∃ s2, ROut.text s = parse_action_of_str s2))) :=
  ⟨⟨by decide, by decide⟩,
    c7_amended_backtick_only_from_buffers init_pstate 'x' (by decide)
      (by decide)⟩
